import Mathlib

/-!
# Verification of the reframe-tests-library repository

Shallow embedding of the parts of the repository that the claims refer to.
Python strings are modelled as Lean `String`s, Python numbers as exact
rationals (`ℚ`), dynamically typed dictionary values as small sum types, and
fallible Python code as `Except`-valued functions.
-/

namespace Hpctestslib

/-- A Python value that is either a string or a list of strings, as stored in
the software-descriptor dictionaries handled by
`recipes_creation_mixin.validate_uenv_software_fields`. -/
inductive StrOrList where
  | str (s : String)
  | list (l : List String)
  deriving DecidableEq, Repr

/-- A Python value that is either a bool or a string, as stored under the
`cuda` key of a software descriptor. -/
inductive BoolOrStr where
  | bool (b : Bool)
  | str (s : String)
  deriving DecidableEq, Repr

/-- A software descriptor dictionary (`src/hpctestslib/checks/build_systems/
uenv_checks/definitions.py`, `UENV_SOFTWARE` entries).  Every key that
`validate_uenv_software_fields` reads or writes is a field; `none` models an
absent key. -/
structure Software where
  name : Option String := none
  bootstrap : Option String := none
  gcc : Option String := none
  spack : Option String := none
  descr : Option String := none
  spec : Option StrOrList := none
  variants : Option StrOrList := none
  mpi : Option StrOrList := none
  cuda : Option BoolOrStr := none
  cuda_arch : Option String := none
  envname : Option String := none
  deriving DecidableEq, Repr

/-- Constant `definitions.UENV_DEFAULT_COMPILER`. -/
def UENV_DEFAULT_COMPILER : String := "gcc@13"

/-- Constant `definitions.DEFAULT_SPACK`. -/
def DEFAULT_SPACK : String := "v0.23.1"

/-- Python `sep.join(items)`. -/
def pyJoin (sep : String) : List String → String
  | [] => ""
  | a :: as => as.foldl (fun acc x => acc ++ sep ++ x) a

/-- Split a character list at every occurrence of the separator. -/
def splitChars (sep : Char) : List Char → List (List Char)
  | [] => [[]]
  | c :: cs =>
    let r := splitChars sep cs
    if c == sep then [] :: r
    else
      match r with
      | [] => [[c]]
      | x :: xs => (c :: x) :: xs

/-- Python `s.split(sep)` for a one-character separator. -/
def pySplitOn (s : String) (sep : Char) : List String :=
  (splitChars sep s.data).map String.mk

/-- Test whether the first list leads the second one. -/
def charsLead : List Char → List Char → Bool
  | [], _ => true
  | _ :: _, [] => false
  | p :: ps, c :: cs => p == c && charsLead ps cs

/-- Python `s.startswith(pre)`. -/
def pyStartsWith (s pre : String) : Bool :=
  charsLead pre.data s.data

/-- Substring containment over character lists. -/
def pyInChars (needle : List Char) : List Char → Bool
  | [] => needle.isEmpty
  | c :: cs => charsLead needle (c :: cs) || pyInChars needle cs

/-- Python substring containment `needle in hay`. -/
def pyInStr (needle hay : String) : Bool :=
  pyInChars needle.data hay.data

/-- Python `s.split(sep, maxsplit=1)` for a one-character separator. -/
def pySplit1 (s : String) (sep : Char) : List String :=
  match pySplitOn s sep with
  | [] => [s]
  | x :: rest =>
    if rest.isEmpty then [x] else [x, pyJoin (String.mk [sep]) rest]

/-- Python `s.replace(pat, rep)` for a one-character pattern. -/
def pyReplaceChar (s : String) (pat : Char) (rep : String) : String :=
  String.mk (s.data.flatMap (fun c => if c == pat then rep.data else [c]))

/-- Python `s.lower()` (ASCII). -/
def pyToLower (s : String) : String :=
  String.mk (s.data.map Char.toLower)

/-- Python exceptions raised by the embedded code.  The external framework
implements skipping a test by raising a dedicated exception from `skip_if`
and `skip_if_no_procinfo`; `skipTest` models that exception. -/
inductive PyErr where
  | valueError (msg : String)
  | attributeError (msg : String)
  | typeError (msg : String)
  | nameError (name : String)
  | keyError (key : String)
  | skipTest (msg : String)
  deriving DecidableEq, Repr

/-- The value the `bootstrap` key receives when absent: the default compiler,
with everything after the last `.` dropped when the compiler string contains a
dot (`mixin.py` lines 123-127). -/
def defaultBootstrap : String :=
  let major_version := pySplitOn UENV_DEFAULT_COMPILER '.'
  if major_version.length > 1 then pyJoin "" major_version.dropLast
  else UENV_DEFAULT_COMPILER

/-- Block `mixin.py` lines 123-127: default-fill the `bootstrap` key. -/
def fill_bootstrap (sw : Software) : Software :=
  if sw.bootstrap.isNone then { sw with bootstrap := some defaultBootstrap }
  else sw

/-- Block lines 129-130: default-fill the `gcc` key. -/
def fill_gcc (sw : Software) : Software :=
  if sw.gcc.isNone then { sw with gcc := some UENV_DEFAULT_COMPILER } else sw

/-- Block lines 132-133: default-fill the `spack` key. -/
def fill_spack (sw : Software) : Software :=
  if sw.spack.isNone then { sw with spack := some DEFAULT_SPACK } else sw

/-- Block lines 135-136: default-fill the `descr` key with the name. -/
def fill_descr (name0 : String) (sw : Software) : Software :=
  if sw.descr.isNone then { sw with descr := some name0 } else sw

/-- Block lines 138-139: default-fill the `spec` key with the empty string. -/
def fill_spec (sw : Software) : Software :=
  if sw.spec.isNone then { sw with spec := some (.str "") } else sw

/-- Block lines 141-144: turn the `spec` value into a single string, with the
`  - <name> ` prefix for a string value and `  - ` item prefixes for a list
value. -/
def transform_spec (name0 : String) (sw : Software) : Software :=
  match sw.spec with
  | some (.str s) =>
    { sw with spec := some (.str ("  - " ++ name0 ++ " " ++ s)) }
  | some (.list l) =>
    { sw with
      spec := some (.str (pyJoin "\n" (l.map (fun spec => "  - " ++ spec)))) }
  | none => sw

/-- Block lines 146-147: default-fill the `variants` key. -/
def fill_variants (sw : Software) : Software :=
  if sw.variants.isNone then { sw with variants := some (.list ["+mpi"]) }
  else sw

/-- Block lines 149-150: default-fill the `mpi` key. -/
def fill_mpi (sw : Software) : Software :=
  if sw.mpi.isNone then { sw with mpi := some (.list ["spec: cray-mpich"]) }
  else sw

/-- Block lines 152-157: normalize a string `mpi` value into a one-element
list carrying the `spec: ` prefix. -/
def transform_mpi (sw : Software) : Software :=
  match sw.mpi with
  | some (.str mpi) =>
    if !pyStartsWith mpi "spec:" then
      { sw with mpi := some (.list ["spec: " ++ mpi]) }
    else
      { sw with mpi := some (.list [mpi]) }
  | _ => sw

/-- Block lines 159-179: the `if 'cuda' in software:` block, normalizing the
`cuda` marker, default-filling `cuda_arch`, adding the `+cuda` and
`cuda_arch` variants and the `gpu: cuda` MPI entry. -/
def apply_cuda (sw0 : Software) : Except PyErr Software := do
  let some cuda0 := sw0.cuda
    | return sw0
  let mut sw := sw0
  if let .bool b := cuda0 then
    if b then
      sw := { sw with cuda := some (.str "cuda") }
  if sw.cuda_arch.isNone then
    sw := { sw with cuda_arch := some "cuda_arch=90" }
  let cuda_arch := sw.cuda_arch.getD ""
  match sw.variants with
  | some (.str v) =>
    let variants := pySplitOn v '\n'
    let mut v' := v
    if !variants.contains "+cuda" then
      v' := v' ++ "\n - +cuda"
    if !variants.contains cuda_arch then
      v' := v' ++ "\n - " ++ cuda_arch
    sw := { sw with variants := some (.str v') }
  | some (.list l) =>
    let mut l' := l
    if !l'.contains "+cuda" then
      l' := l' ++ ["+cuda"]
    if !l'.contains cuda_arch then
      l' := l' ++ [cuda_arch]
    sw := { sw with variants := some (.list l') }
  | none => pure ()
  -- software['mpi'] = software['mpi'] + ['gpu: cuda']
  match sw.mpi with
  | some (.list l) =>
    return { sw with mpi := some (.list (l ++ ["gpu: cuda"])) }
  | _ =>
    throw (.typeError "can only concatenate str (not \x7blist\x7d) to str")

/-- Block lines 181-184: turn the `variants` value into a single string, with
the `  - <name> ` prefix for a string value and `  - ` item prefixes for a
list value. -/
def transform_variants (sw : Software) : Software :=
  match sw.variants with
  | some (.str v) =>
    { sw with
      variants := some (.str ("  - " ++ sw.name.getD "" ++ " " ++ v)) }
  | some (.list l) =>
    { sw with
      variants := some (.str (pyJoin "\n" (l.map (fun v => "  - " ++ v)))) }
  | none => sw

/-- Block line 186: `software['mpi'] = '\n    '.join(software['mpi'])`
(Python `str.join` iterates over the characters of a string argument). -/
def join_mpi (sw : Software) : Software :=
  match sw.mpi with
  | some (.list l) => { sw with mpi := some (.str (pyJoin "\n    " l)) }
  | some (.str s) =>
    { sw with
      mpi := some (.str (pyJoin "\n    "
                           (s.data.map (fun c => String.mk [c])))) }
  | none => sw

/-- Block lines 188-193: default-fill `envname` with the part of the name
before `@`, appending `@latest` to the name when it carries no version. -/
def set_envname (sw : Software) : Software :=
  if sw.envname.isNone then
    let sname := pySplit1 (sw.name.getD "") '@'
    let envname := sname.headD ""
    let sw1 := { sw with envname := some envname }
    if sname.length != 2 then
      { sw1 with name := some (sw1.name.getD "" ++ "@latest") }
    else sw1
  else sw

/-- Block lines 195-199: append the cuda marker to the name when the name
does not already mention cuda. -/
def append_cuda_suffix (sw : Software) : Except PyErr Software := do
  let some cuda1 := sw.cuda
    | return sw
  let nm := sw.name.getD ""
  if !pyInStr "cuda" nm then
    match cuda1 with
    | .str c => return { sw with name := some (nm ++ pyReplaceChar c '@' "") }
    | .bool _ => throw (.attributeError "bool object has no attribute replace")
  return sw

/-- Block lines 201-205: append the compiler to the name when the version
suffix does not already mention gcc. -/
def append_gcc_suffix (sw : Software) : Software :=
  let name_opts := pySplit1 (sw.name.getD "") '@'
  if name_opts.length > 1 then
    let suffix := name_opts.getLastD ""
    if !pyInStr "gcc" suffix then
      { sw with
        name := some (sw.name.getD "" ++
                       pyReplaceChar (sw.gcc.getD "") '@' "") }
    else sw
  else sw

/-- Blocks `mixin.py` lines 159-206: the tail of
`validate_uenv_software_fields` from the cuda block on. -/
def validate_tail (sw0 : Software) : Except PyErr Software := do
  let sw ← apply_cuda sw0
  let sw := set_envname (join_mpi (transform_variants sw))
  let sw ← append_cuda_suffix sw
  return append_gcc_suffix sw

/-- Blocks `mixin.py` lines 123-157: the default-fill and normalization
blocks of `validate_uenv_software_fields` preceding the cuda block, in
source order. -/
def validate_stage1 (name0 : String) (sw : Software) : Software :=
  transform_mpi (fill_mpi (fill_variants (transform_spec name0
    (fill_spec (fill_descr name0 (fill_spack (fill_gcc
      (fill_bootstrap sw))))))))

/-- Embedding of `recipes_creation_mixin.validate_uenv_software_fields`
(`src/hpctestslib/mixins/build_systems/uenv/mixin.py`, lines 118-206), as the
sequence of its blocks.  The Python function mutates the dict in place; the
embedding returns the final state of the dict. -/
def validate_uenv_software_fields (software : Software) :
    Except PyErr Software := do
  -- if 'name' not in software: raise ValueError(...)
  let some name0 := software.name
    | throw (.valueError "Found software without a name entry")
  validate_tail (validate_stage1 name0 software)

/-! ### Concrete descriptors used when exercising the validation function -/

/-- The GROMACS software descriptor of `definitions.UENV_SOFTWARE`, restricted
to the fields the claim mentions: `{'name': 'gromacs@2024.3',
'spec': '+openmp'}`. -/
def gromacsDescriptor : Software :=
  { name := some "gromacs@2024.3", spec := some (.str "+openmp") }

/-- The state of `gromacsDescriptor` after one application of
`validate_uenv_software_fields` (each field spelled out). -/
def gromacsValidatedOnce : Software :=
  { name := some "gromacs@2024.3gcc13",
    bootstrap := some "gcc@13",
    gcc := some "gcc@13",
    spack := some "v0.23.1",
    descr := some "gromacs@2024.3",
    spec := some (.str "  - gromacs@2024.3 +openmp"),
    variants := some (.str "  - +mpi"),
    mpi := some (.str "spec: cray-mpich"),
    envname := some "gromacs" }

/-- The state of `gromacsDescriptor` after a second application of
`validate_uenv_software_fields`: the `  - <name> ` prefix has been prepended
to `spec` and `variants` a second time. -/
def gromacsValidatedTwice : Software :=
  { name := some "gromacs@2024.3gcc13",
    bootstrap := some "gcc@13",
    gcc := some "gcc@13",
    spack := some "v0.23.1",
    descr := some "gromacs@2024.3",
    spec := some (.str "  - gromacs@2024.3gcc13   - gromacs@2024.3 +openmp"),
    variants := some (.str "  - gromacs@2024.3gcc13   - +mpi"),
    mpi := some (.str "spec: cray-mpich"),
    envname := some "gromacs" }

/-! ### NWChem mixin: benchmark parameter and method dispatch -/

/-- Modelled from the spec: the external framework's `util.toalphanum` helper,
which maps every character that is not alphanumeric (and not an underscore) to
an underscore; it is not part of this repository, only called by it. -/
def toalphanum (s : String) : String :=
  String.mk (s.data.map (fun c => if c.isAlphanum || c == '_' then c else '_'))

/-- The active values of the `benchmark` parameter of `nwchem_mixin`
(`src/hpctestslib/mixins/sciapp/nwchem/mixin.py`, lines 65-79; the
commented-out values are not parameter values). -/
def nwchem_benchmark : List String := ["bf_tddft_freq", "glucose", "heme6a1"]

/-- The names of the methods defined on the `nwchem_mixin` class body
(`mixin.py`; commented-out defs excluded). -/
def nwchem_mixin_methods : List String :=
  ["set_executable", "set_tags", "set_descr", "set_input_file",
   "set_keep_files", "create_inpufile",
   "input_bf_tddft_freq", "input_cf3coo__cosmo", "input_glucose",
   "input_glucose_ccsd", "input_glucose_cosmo", "input_glucose_dft",
   "input_glucose_freq", "input_glucose_opt", "input_glucose_qmd",
   "input_glucose_tddft", "input_heme6a1", "input_water_dimer",
   "perf",
   "assert_bf_tddft_freq", "assert_cf3coo__cosmo", "assert_glucose",
   "assert_glucose_ccsd", "assert_glucose_cosmo", "assert_glucose_dft",
   "assert_glucose_freq", "assert_glucose_opt", "assert_glucose_qmd",
   "assert_glucose_tddft", "assert_heme6a1", "assert_water_dimer",
   "assert_sanity"]

/-- Python `getattr(self, attr, None)` over the method table of a class. -/
def pyGetattr (methods : List String) (attr : String) : Option String :=
  if methods.contains attr then some attr else none

/-! ### NWChem mixin: regex extraction -/

/-- Python's `\s` character class (ASCII part). -/
def isPyWs (c : Char) : Bool :=
  c == ' ' || c == '\t' || c == '\n' || c == '\x0b' || c == '\x0c' || c == '\r'

/-- Consume the literal characters `lit` from the front of `cs`. -/
def consumeLit : List Char → List Char → Option (List Char)
  | [], cs => some cs
  | _ :: _, [] => none
  | l :: ls, c :: cs => if c == l then consumeLit ls cs else none

/-- Consume a maximal non-empty run of whitespace (`\s+`); the following
token of the patterns in the source always begins with a non-whitespace
character, so the maximal run is the only viable one. -/
def consumeWs1 (cs : List Char) : Option (List Char) :=
  let run := cs.takeWhile isPyWs
  if run.isEmpty then none else some (cs.drop run.length)

/-- Attempt to match the regex
`r'Total\s+DFT\s+energy\s+=\s+(?P<energy>\S+)'`
(`mixin.py` lines 266-267) at the start of `cs`, returning the `energy`
capture group (`\S+`, a maximal non-empty run of non-whitespace). -/
def dftEnergyMatchAt (cs : List Char) : Option String := do
  let cs ← consumeLit "Total".data cs
  let cs ← consumeWs1 cs
  let cs ← consumeLit "DFT".data cs
  let cs ← consumeWs1 cs
  let cs ← consumeLit "energy".data cs
  let cs ← consumeWs1 cs
  let cs ← consumeLit "=".data cs
  let cs ← consumeWs1 cs
  let cap := cs.takeWhile (fun c => !isPyWs c)
  if cap.isEmpty then none else some (String.mk cap)

/-- Python `re.search` for the DFT-energy regex: try the match at every position,
left to right, and return the first (leftmost) match's `energy` group. -/
def dftEnergySearch (s : String) : Option String :=
  go s.data
where
  go : List Char → Option String
    | [] => none
    | c :: tl =>
      match dftEnergyMatchAt (c :: tl) with
      | some cap => some cap
      | none => go tl

/-- The literal example log line shown in the comment at `mixin.py` line 265. -/
def dftEnergyExampleLine : String := "Total DFT energy =     -124.098908887656"

/-- The numeric value of a list of decimal digits. -/
def digitsVal (l : List Char) : ℕ :=
  l.foldl (fun a c => 10 * a + (c.toNat - '0'.toNat)) 0

/-- Python `float(s)` on plain decimal literals (optional sign, integer part,
optional fractional part), modelled exactly as a rational number. -/
def pyFloat (s : String) : Option ℚ :=
  let (sgn, cs) :=
    match s.data with
    | '-' :: r => ((-1 : ℚ), r)
    | '+' :: r => ((1 : ℚ), r)
    | r => ((1 : ℚ), r)
  let intPart := cs.takeWhile Char.isDigit
  let rest := cs.drop intPart.length
  match rest with
  | [] => if intPart.isEmpty then none else some (sgn * digitsVal intPart)
  | '.' :: frac =>
    if frac.all Char.isDigit && !(intPart.isEmpty && frac.isEmpty) then
      some (sgn * ((digitsVal intPart : ℚ) +
                    (digitsVal frac : ℚ) / 10 ^ frac.length))
    else none
  | _ => none

/-! ### NWChem mixin: tolerance assertions

The assertion primitives (`sn.assert_reference`, `sn.all`) belong to the
external test framework, not to this repository.  They are modelled from the
spec: the tolerance is a *relative* tolerance computed from the threshold and
the reference value's magnitude, the asserted interval is
`[reference - tolerance, reference + tolerance]`, and each assertion call
raises on failure, halting the evaluation and reporting the offending
comparison. -/

/-- Modelled from the spec: the acceptance predicate of the external
framework's `sn.assert_reference(val, ref, lower_thres, upper_thres)`.  The
thresholds are fractions of the reference value's magnitude, so the accepted
interval is `[ref + lower_thres*|ref|, ref + upper_thres*|ref|]`. -/
def assert_reference_accepts (val ref lower_thres upper_thres : ℚ) : Bool :=
  decide (ref + lower_thres * |ref| ≤ val ∧ val ≤ ref + upper_thres * |ref|)

/-- Failure report of a reference assertion: the message identifies the
offending comparison, i.e. the extracted value and the reference value it was
checked against. -/
structure FailedComparison where
  val : ℚ
  ref : ℚ
  deriving DecidableEq

/-- Modelled from the spec: `sn.assert_reference` as a fallible computation;
it returns `True` on success and raises a sanity error reporting the
offending comparison on failure. -/
def sn_assert_reference (val ref lower_thres upper_thres : ℚ) :
    Except FailedComparison Bool :=
  if assert_reference_accepts val ref lower_thres upper_thres then .ok true
  else .error ⟨val, ref⟩

/-- Modelled from the spec: `sn.all` evaluates its assertions in order; the
first assertion that raises halts the evaluation with that assertion's
report, a `False` result short-circuits to `False`, and otherwise the
conjunction of the results is returned. -/
def sn_all : List (Except FailedComparison Bool) → Except FailedComparison Bool
  | [] => .ok true
  | x :: xs =>
    match x with
    | .error m => .error m
    | .ok false => .ok false
    | .ok true => sn_all xs

/-- Reference value `ref_total_scf_energy` of `assert_glucose`
(`mixin.py` line 398). -/
def ref_total_scf_energy : ℚ := -683.365261303407

/-- Reference value `ref_one_e_energy` of `assert_glucose` (line 406). -/
def ref_one_e_energy : ℚ := -2607.299805379243

/-- Reference value `ref_two_e_energy` of `assert_glucose` (line 414). -/
def ref_two_e_energy : ℚ := 1084.575687920973

/-- Reference value `ref_nuc_rep_energy` of `assert_glucose` (line 422). -/
def ref_nuc_rep_energy : ℚ := 839.358856154863

/-- Relative-tolerance computation of `assert_glucose`:
`thres_X = abs(ener_thres / ref_X)` (`mixin.py` lines 399, 407, 415, 423). -/
def rel_thres (ener_thres ref : ℚ) : ℚ := |ener_thres / ref|

/-- Embedding of `nwchem_mixin.assert_glucose` (`mixin.py` lines 385-434).
The regex extraction of the threshold and of the four energies from the job's
standard output is abstracted: the extracted values are the arguments.  The
function aggregates the four tolerance assertions with `sn.all`. -/
def assert_glucose (ener_thres total_scf_energy one_e_energy two_e_energy
    nuc_rep_energy : ℚ) : Except FailedComparison Bool :=
  let thres_total_scf_energy := rel_thres ener_thres ref_total_scf_energy
  let thres_one_e_energy := rel_thres ener_thres ref_one_e_energy
  let thres_two_e_energy := rel_thres ener_thres ref_two_e_energy
  let thres_nuc_rep_energy := rel_thres ener_thres ref_nuc_rep_energy
  sn_all [
    sn_assert_reference total_scf_energy ref_total_scf_energy
      (-thres_total_scf_energy) thres_total_scf_energy,
    sn_assert_reference one_e_energy ref_one_e_energy
      (-thres_one_e_energy) thres_one_e_energy,
    sn_assert_reference two_e_energy ref_two_e_energy
      (-thres_two_e_energy) thres_two_e_energy,
    sn_assert_reference nuc_rep_energy ref_nuc_rep_energy
      (-thres_nuc_rep_energy) thres_nuc_rep_energy]

/-! ### uenv checks: dependency registration -/

/-- Embedding of `build_uenv_check.set_parent`
(`src/hpctestslib/checks/build_systems/uenv_checks/benchmarks.py`,
lines 408-414).  `variants` is the list of `bootstrap_uenv_check` variant
numbers matching the test's `uenv` parameter (computed by the external
framework's `get_variant_nums`); on success the registered variant is
returned. -/
def build_uenv_check_set_parent (name : String) (variants : List Nat) :
    Except String Nat :=
  match variants with
  | [v] => .ok v
  | _ => .error (name ++ " depends on more than one " ++
                 "version of bootstrap_uenv_check")

/-- Embedding of `update_uenv_check.set_parent` (`benchmarks.py`,
lines 480-485), identical but resolving `build_uenv_check` variants. -/
def update_uenv_check_set_parent (name : String) (variants : List Nat) :
    Except String Nat :=
  match variants with
  | [v] => .ok v
  | _ => .error (name ++ " depends on more than one version of build_uenv_check")

/-! ### Skip-precondition helpers -/

/-- The job scheduler backends of the external framework that a partition can
be configured with. -/
inductive Scheduler where
  | slurm
  | squeue
  | pbs
  | torque
  | lsf
  | oar
  | sge
  | flux
  | ssh
  | localSched
  deriving DecidableEq, Repr

/-- Embedding of `SkipIfNotSlurm.skip_if_not_slurm`
(`src/hpctestslib/util/__init__.py`, lines 218-225): the result is the skip
message when the current partition's scheduler is neither a
`SlurmJobScheduler` nor a `SqueueJobScheduler`, and `none` (test untouched)
otherwise. -/
def skip_if_not_slurm (sched : Scheduler) : Option String :=
  let is_slurm := sched == .slurm || sched == .squeue
  if !is_slurm then some "The scheduler is not Slurm" else none

/-- Embedding of `build_uenv_mixin.uenv2string`
(`src/hpctestslib/mixins/build_systems/uenv/mixin.py`, lines 27-34). -/
def uenv2string (swname swver system arch : String)
    (uenv_version : Option String) : String :=
  match uenv_version with
  | some v => swname ++ "/" ++ swver ++ ":" ++ v ++ "@" ++ system ++ "%" ++ arch
  | none => swname ++ "/" ++ swver ++ "@" ++ system ++ "%" ++ arch

/-- Embedding of `build_uenv_mixin.get_uenv_name_from_software`
(`mixin.py`, lines 36-57).  The method begins with
`self.skip_if_no_procinfo()`, an external-framework primitive modelled from
the spec: the test is skipped (a skip exception is raised) when the current
partition carries no processor information.  `procArch` is the current
partition's processor architecture (`none` when the processor object is
falsy, giving `'unknown'`). -/
def get_uenv_name_from_software (hasProcinfo : Bool) (procArch : Option String)
    (systemName : String) (software : Software)
    (uenv_version : Option String) : Except PyErr String := do
  if !hasProcinfo then
    throw (.skipTest "No processor info found for the current partition")
  let some uenv_name := software.name
    | throw (.keyError "name")
  let env_parts := pySplit1 uenv_name '@'
  let swname := env_parts.headD ""
  let swver := if env_parts.length > 1 then env_parts.getLastD "" else "latest"
  let arch :=
    match procArch with
    | some a => a
    | none => "unknown"
  return uenv2string swname swver systemName arch uenv_version

/-- Embedding of `bootstrap_uenv_check.is_uenv_installed` (`benchmarks.py`,
lines 326-333): `get_uenv_name_from_software` runs first (and can skip the
test when the partition has no processor information), then the test's
`uenv` descriptor is validated (mutated in place), and finally the test is
skipped when the resulting descriptor is among the aggregator's
`uenvs_installed`.  A skip is the `skipTest` exception, mirroring the
framework's `skip_if`. -/
def is_uenv_installed (hasProcinfo : Bool) (procArch : Option String)
    (systemName : String) (uenv : Software)
    (uenvs_installed : List Software) : Except PyErr Unit := do
  let uenv_name ← get_uenv_name_from_software hasProcinfo procArch systemName
    uenv none
  let uenv' ← validate_uenv_software_fields uenv
  if uenv' ∈ uenvs_installed then
    throw (.skipTest ("uenv " ++ uenv_name ++ " is already built"))
  return ()

/-! ### util.get_all_files_in_paths -/

/-- The names bound at module level in `src/hpctestslib/util/__init__.py`
(lines 6-22): the imports and from-imports.  `pathlib` is not among them. -/
def utilModuleGlobals : List String :=
  ["glob", "grp", "pwd", "os", "stat", "rfm", "rt", "osext",
   "MutableMapping", "AbstractContextManager",
   "SlurmJobScheduler", "SqueueJobScheduler", "cray_cdt_version",
   "ReframeError"]

/-- Python truthiness of the `extensions` argument (a string, a list of
strings, or `None`). -/
def pyTruthyExt : Option StrOrList → Bool
  | none => false
  | some (.str s) => !(s == "")
  | some (.list l) => !l.isEmpty

/-- Python `os.path.join(a, b)`. -/
def pyPathJoin (a b : String) : String :=
  if pyStartsWith b "/" then b
  else if a == "" || a.data.getLastD ' ' == '/' then a ++ b
  else a ++ "/" ++ b

/-- Python `pathlib.Path(file).suffix`: the extension of the final path
component, empty for a bare leading dot. -/
def pySuffix (file : String) : String :=
  let base := (pySplitOn file '/').getLastD ""
  match (pySplitOn base '.').reverse with
  | ext :: _ :: rest =>
    if rest.isEmpty && pyStartsWith base "." then "" else "." ++ ext
  | _ => ""

/-- An entry of the abstract filesystem a call of `get_all_files_in_paths`
runs against: an existing file, a directory (with the `os.walk` output as a
list of `(dirpath, filenames)` levels), or a missing path (for which
`os.walk` yields nothing). -/
inductive FSEntry where
  | file
  | dir (walk : List (String × List String))
  | missing
  deriving Repr

/-- Embedding of the inner helper `_get_file` of `get_all_files_in_paths`
(`util/__init__.py` lines 150-162).  When `extensions` is truthy the helper
evaluates `pathlib.Path(file).suffix`; the name `pathlib` is looked up among
the module's globals and, absent there, a `NameError` is raised. -/
def get_file (file : String) (extensions : Option StrOrList) :
    Except PyErr (Option String) :=
  if pyTruthyExt extensions then
    if utilModuleGlobals.contains "pathlib" then
      let ext := pySuffix file
      match extensions with
      | some (.list l) => .ok (if l.contains ext then some file else none)
      | some (.str e) => .ok (if ext == e then some file else none)
      | none => .ok none
    else .error (.nameError "pathlib")
  else .ok (some file)

/-- Inner loop of `get_all_files_in_paths` over the files of one walk level
(lines 171-174): `_get_file` is applied to each file in order and the kept
ones are accumulated. -/
def filterLevel (dirpath : String) (filenames : List String)
    (extensions : Option StrOrList) : Except PyErr (List String) :=
  match filenames with
  | [] => .ok []
  | f :: fns => do
    let r ← get_file (pyPathJoin dirpath f) extensions
    let rest ← filterLevel dirpath fns extensions
    match r with
    | some p => .ok (p :: rest)
    | none => .ok rest

/-- Walk loop of `get_all_files_in_paths` (lines 170-176) over the visited
levels; the caller passes only the first level when `recursive` is false. -/
def walkFiles (levels : List (String × List String))
    (extensions : Option StrOrList) : Except PyErr (List String) :=
  match levels with
  | [] => .ok []
  | lvl :: rest => do
    let files ← filterLevel lvl.1 lvl.2 extensions
    let more ← walkFiles rest extensions
    .ok (files ++ more)

/-- Embedding of `util.get_all_files_in_paths` (`util/__init__.py`,
lines 149-178) over an abstract filesystem `fs`. -/
def get_all_files_in_paths (fs : String → FSEntry) (paths : List String)
    (extensions : Option StrOrList) (recursive : Bool) :
    Except PyErr (List String) :=
  match paths with
  | [] => .ok []
  | path :: rest => do
    let files ←
      match fs path with
      | .file => do
        let r ← get_file path extensions
        match r with
        | some p => .ok [p]
        | none => .ok ([] : List String)
      | .dir levels =>
        walkFiles (if recursive then levels else levels.take 1) extensions
      | .missing => .ok []
    let more ← get_all_files_in_paths fs rest extensions recursive
    .ok (files ++ more)

/-- The files `get_all_files_in_paths` encounters and hands to `_get_file`:
existing-file paths, and the files of the walked levels of directory paths. -/
def encounteredFiles (fs : String → FSEntry) (paths : List String)
    (recursive : Bool) : List String :=
  paths.flatMap fun path =>
    match fs path with
    | .file => [path]
    | .dir levels =>
      (if recursive then levels else levels.take 1).flatMap
        (fun lvl => lvl.2.map (pyPathJoin lvl.1))
    | .missing => []

/-! ### util.get_cpus_per_part and util.get_max_cpus_per_part -/

/-- A system partition as read from the external framework's runtime:
scheduler locality, processor core and socket counts
(`util/__init__.py` lines 79-117). -/
structure Partition where
  name : String
  fullname : String
  num_cores : Nat
  num_sockets : Nat
  is_local : Bool
  deriving DecidableEq, Repr

/-- An item yielded by the partition generators: a populated dict or the
final empty dict. -/
inductive PartItem where
  | info (name fullname : String) (max_num_cores num_cores num_sockets : Nat)
  | empty
  deriving DecidableEq, Repr

/-- The `num_cores` value of a yielded dict (`0` for the empty dict). -/
def PartItem.numCores : PartItem → Nat
  | .info _ _ _ n _ => n
  | .empty => 0

/-- The `while nthr < num_cores` loop of `get_cpus_per_part`
(lines 99-116): the running thread count `nthr` starts at `1` and doubles, so
it is always the power `2 ^ k`; the loop yields each power of two below the
core count and one final value `2 ^ k ≥ num_cores`. -/
def cpus_loop (num_cores : Nat) (k : Nat) : List Nat :=
  if 2 ^ k < num_cores then 2 ^ k :: cpus_loop num_cores (k + 1) else [2 ^ k]
termination_by num_cores - 2 ^ k
decreasing_by
  exact Nat.sub_lt_sub_left (by assumption)
    (Nat.pow_lt_pow_right (by norm_num) (Nat.lt_succ_self k))

/-- The dicts yielded for one partition by `get_cpus_per_part`. -/
def partition_entries (p : Partition) : List PartItem :=
  (cpus_loop p.num_cores 0).map
    (fun nthr => .info p.name p.fullname p.num_cores nthr p.num_sockets)

/-- Embedding of `util.get_cpus_per_part` (`util/__init__.py` lines 94-117):
the generator's yields, in order, with local partitions skipped when
`avoid_local` holds and the final `yield {}`. -/
def get_cpus_per_part (parts : List Partition) (avoid_local : Bool) :
    List PartItem :=
  ((parts.filter (fun p => !(p.is_local && avoid_local))).flatMap
    partition_entries) ++ [.empty]

/-- Embedding of `util.get_max_cpus_per_part` (`util/__init__.py`
lines 79-91). -/
def get_max_cpus_per_part (parts : List Partition) (avoid_local : Bool) :
    List PartItem :=
  ((parts.filter (fun p => !(p.is_local && avoid_local))).map
    (fun p => .info p.name p.fullname p.num_cores p.num_cores p.num_sockets))
    ++ [.empty]

/-- Powers of two, as a Boolean predicate. -/
def isPow2 (n : Nat) : Bool :=
  decide (0 < n) && decide (2 ^ Nat.log 2 n = n)


/-! ### Claim-side predicates for the software-descriptor fields -/

/-- A present, non-empty string value for a descriptor key. -/
def optStrFilled : Option String → Bool
  | some s => !(s == "")
  | none => false

/-- A present, non-empty value for a descriptor key holding a string or a
list. -/
def optValFilled : Option StrOrList → Bool
  | some (.str s) => !(s == "")
  | some (.list l) => !l.isEmpty
  | none => false

/-- A string field that, when present, holds a non-empty string. -/
def optStrOk : Option String → Bool
  | some s => !(s == "")
  | none => true

/-- A field that, when present as a list, is a non-empty list. -/
def listFieldOk : Option StrOrList → Bool
  | some (.list l) => !l.isEmpty
  | _ => true

/-- An `mpi` field that, when present as a list, is neither the empty list
nor the one-element list holding the empty string (the two shapes whose
`join` is empty). -/
def mpiFieldOk : Option StrOrList → Bool
  | some (.list l) => !l.isEmpty && !(l == [""])
  | _ => true

/-! ## Theorems -/

/-- Unfolding lemma for the acceptance predicate of a reference assertion. -/
theorem assert_reference_accepts_iff (val ref lo hi : ℚ) :
    assert_reference_accepts val ref lo hi = true ↔
      ref + lo * |ref| ≤ val ∧ val ≤ ref + hi * |ref| := by
  simp [assert_reference_accepts]

/-- A relative tolerance, multiplied back by the reference magnitude, gives
back the absolute threshold. -/
theorem rel_thres_mul_abs (e r : ℚ) (hr : r ≠ 0) :
    rel_thres e r * |r| = |e| := by
  rw [rel_thres, abs_div, div_mul_cancel₀ _ (abs_ne_zero.mpr hr)]

/-- C1: with the relative tolerance `t = abs(threshold / ref)` computed from
the extracted convergence threshold `1e-6` and the glucose reference value,
`assert_reference(value, ref, -t, t)` accepts exactly the values in
`[ref - 1e-6, ref + 1e-6]` and rejects every value outside it. -/
theorem glucose_reference_interval :
    ∀ value : ℚ,
      assert_reference_accepts value ref_total_scf_energy
        (-(rel_thres (1e-6) ref_total_scf_energy))
        (rel_thres (1e-6) ref_total_scf_energy) = true ↔
      ref_total_scf_energy - 1e-6 ≤ value ∧
        value ≤ ref_total_scf_energy + 1e-6 := by
  intro value
  have ht : rel_thres (1e-6) ref_total_scf_energy * |ref_total_scf_energy| =
      (1e-6 : ℚ) := by
    rw [rel_thres_mul_abs _ _ (by rw [ref_total_scf_energy]; norm_num),
      abs_of_pos (by norm_num)]
  rw [assert_reference_accepts_iff, neg_mul, ht]
  constructor
  · rintro ⟨h1, h2⟩
    exact ⟨by linarith, by linarith⟩
  · rintro ⟨h1, h2⟩
    exact ⟨by linarith, by linarith⟩

/-- C3 counterexample: on a run in which both the total-SCF-energy and the
one-electron-energy assertions are mismatched, the evaluation of
`assert_glucose` fails with a report identifying only the first mismatched
comparison; the second mismatched comparison is not part of the report. -/
theorem glucose_failure_report_first_only :
    assert_reference_accepts 0 ref_total_scf_energy
      (-(rel_thres (1e-6) ref_total_scf_energy))
      (rel_thres (1e-6) ref_total_scf_energy) = false ∧
    assert_reference_accepts 0 ref_one_e_energy
      (-(rel_thres (1e-6) ref_one_e_energy))
      (rel_thres (1e-6) ref_one_e_energy) = false ∧
    assert_glucose (1e-6) 0 0 ref_two_e_energy ref_nuc_rep_energy =
      .error ⟨0, ref_total_scf_energy⟩ ∧
    (⟨0, ref_total_scf_energy⟩ : FailedComparison) ≠
      ⟨0, ref_one_e_energy⟩ := by
  have hscf : ref_total_scf_energy = -683.365261303407 := rfl
  have hone : ref_one_e_energy = -2607.299805379243 := rfl
  have ht1 : rel_thres (1e-6) ref_total_scf_energy *
      |ref_total_scf_energy| = (1e-6 : ℚ) := by
    rw [rel_thres_mul_abs _ _ (by rw [hscf]; norm_num),
      abs_of_pos (by norm_num)]
  have ht2 : rel_thres (1e-6) ref_one_e_energy * |ref_one_e_energy| =
      (1e-6 : ℚ) := by
    rw [rel_thres_mul_abs _ _ (by rw [hone]; norm_num),
      abs_of_pos (by norm_num)]
  have hacc1 : assert_reference_accepts 0 ref_total_scf_energy
      (-(rel_thres (1e-6) ref_total_scf_energy))
      (rel_thres (1e-6) ref_total_scf_energy) = false := by
    simp only [assert_reference_accepts, decide_eq_false_iff_not]
    rintro ⟨-, h2⟩
    rw [ht1, hscf] at h2
    norm_num at h2
  have hacc2 : assert_reference_accepts 0 ref_one_e_energy
      (-(rel_thres (1e-6) ref_one_e_energy))
      (rel_thres (1e-6) ref_one_e_energy) = false := by
    simp only [assert_reference_accepts, decide_eq_false_iff_not]
    rintro ⟨-, h2⟩
    rw [ht2, hone] at h2
    norm_num at h2
  refine ⟨hacc1, hacc2, ?_, ?_⟩
  · simp [assert_glucose, sn_all, sn_assert_reference, hacc1]
  · simp only [ne_eq, FailedComparison.mk.injEq, hscf, hone]
    norm_num

/-- C3 (amended): `assert_glucose` aggregates its four tolerance assertions
with `sn.all`; the evaluation succeeds exactly when every individual
assertion accepts, and otherwise it fails on the first false assertion,
the failure report carrying that first mismatched assertion's comparison
only (later assertions are not evaluated). -/
theorem assert_glucose_first_failure :
    ∀ t v1 v2 v3 v4 : ℚ,
      (assert_glucose t v1 v2 v3 v4 =
        if assert_reference_accepts v1 ref_total_scf_energy
            (-(rel_thres t ref_total_scf_energy))
            (rel_thres t ref_total_scf_energy) = false then
          .error ⟨v1, ref_total_scf_energy⟩
        else if assert_reference_accepts v2 ref_one_e_energy
            (-(rel_thres t ref_one_e_energy))
            (rel_thres t ref_one_e_energy) = false then
          .error ⟨v2, ref_one_e_energy⟩
        else if assert_reference_accepts v3 ref_two_e_energy
            (-(rel_thres t ref_two_e_energy))
            (rel_thres t ref_two_e_energy) = false then
          .error ⟨v3, ref_two_e_energy⟩
        else if assert_reference_accepts v4 ref_nuc_rep_energy
            (-(rel_thres t ref_nuc_rep_energy))
            (rel_thres t ref_nuc_rep_energy) = false then
          .error ⟨v4, ref_nuc_rep_energy⟩
        else .ok true) ∧
      (assert_glucose t v1 v2 v3 v4 = .ok true ↔
        assert_reference_accepts v1 ref_total_scf_energy
          (-(rel_thres t ref_total_scf_energy))
          (rel_thres t ref_total_scf_energy) = true ∧
        assert_reference_accepts v2 ref_one_e_energy
          (-(rel_thres t ref_one_e_energy))
          (rel_thres t ref_one_e_energy) = true ∧
        assert_reference_accepts v3 ref_two_e_energy
          (-(rel_thres t ref_two_e_energy))
          (rel_thres t ref_two_e_energy) = true ∧
        assert_reference_accepts v4 ref_nuc_rep_energy
          (-(rel_thres t ref_nuc_rep_energy))
          (rel_thres t ref_nuc_rep_energy) = true) := by
  intro t v1 v2 v3 v4
  cases h1 : assert_reference_accepts v1 ref_total_scf_energy
      (-(rel_thres t ref_total_scf_energy))
      (rel_thres t ref_total_scf_energy) <;>
    cases h2 : assert_reference_accepts v2 ref_one_e_energy
        (-(rel_thres t ref_one_e_energy))
        (rel_thres t ref_one_e_energy) <;>
      cases h3 : assert_reference_accepts v3 ref_two_e_energy
          (-(rel_thres t ref_two_e_energy))
          (rel_thres t ref_two_e_energy) <;>
        cases h4 : assert_reference_accepts v4 ref_nuc_rep_energy
            (-(rel_thres t ref_nuc_rep_energy))
            (rel_thres t ref_nuc_rep_energy) <;>
          simp [assert_glucose, sn_all, sn_assert_reference, h1, h2, h3, h4]


theorem str_eq_empty_iff (s : String) : s = "" ↔ s.data = [] := by
  constructor
  · intro h; rw [h]
  · intro h
    cases s with
    | mk d => cases h; rfl

theorem append_ne_empty_left (a b : String) (h : a ≠ "") : a ++ b ≠ "" := by
  rw [Ne, str_eq_empty_iff] at h ⊢
  show ¬(a.data ++ b.data = [])
  simp [h]

theorem pyJoin_foldl_ne_empty (sep : String) (xs : List String) :
    ∀ init : String, init ≠ "" →
      xs.foldl (fun acc x => acc ++ sep ++ x) init ≠ "" := by
  induction xs with
  | nil => intro init h; exact h
  | cons y ys ih =>
    intro init h
    exact ih _ (append_ne_empty_left _ _ (append_ne_empty_left _ _ h))

theorem pyJoin_ne_empty (sep x : String) (xs : List String) (hx : x ≠ "") :
    pyJoin sep (x :: xs) ≠ "" :=
  pyJoin_foldl_ne_empty sep xs x hx

theorem pyStartsWith_spec_ne_empty (s : String)
    (h : pyStartsWith s "spec:" = true) : s ≠ "" := by
  intro he
  subst he
  simp [pyStartsWith, charsLead] at h

theorem append_ne_empty_right (a b : String) (h : b ≠ "") : a ++ b ≠ "" := by
  rw [Ne, str_eq_empty_iff] at h ⊢
  show ¬(a.data ++ b.data = [])
  simp [h]

theorem pyJoin_cons_cons_ne (sep a b : String) (rest : List String)
    (hsep : sep ≠ "") : pyJoin sep (a :: b :: rest) ≠ "" := by
  show (b :: rest).foldl (fun acc x => acc ++ sep ++ x) a ≠ ""
  rw [List.foldl_cons]
  exact pyJoin_foldl_ne_empty sep rest _
    (append_ne_empty_left _ _ (append_ne_empty_right _ _ hsep))

theorem pyJoin_ne_of_ok (sep : String) (l : List String) (hsep : sep ≠ "")
    (h1 : l ≠ []) (h2 : l ≠ [""]) : pyJoin sep l ≠ "" := by
  match l with
  | [] => exact absurd rfl h1
  | [a] =>
    have ha : a ≠ "" := by
      intro h
      exact h2 (by rw [h])
    simpa [pyJoin] using ha
  | a :: b :: rest => exact pyJoin_cons_cons_ne sep a b rest hsep

theorem pyJoin_concat_ne (sep x : String) (l : List String) (hsep : sep ≠ "")
    (hx : x ≠ "") : pyJoin sep (l ++ [x]) ≠ "" := by
  match l with
  | [] => simpa [pyJoin] using hx
  | a :: as =>
    rw [List.cons_append]
    rcases h : as ++ [x] with _ | ⟨b, rest⟩
    · simp at h
    · exact pyJoin_cons_cons_ne sep a b rest hsep

theorem ne_nil_of_contains (l : List String) (x : String)
    (h : l.contains x = true) : l ≠ [] := by
  rcases l with _ | ⟨a, as⟩
  · simp [List.contains] at h
  · simp

/-! ### Field-tracking lemmas for the blocks of the validation function -/
@[simp] theorem fill_bootstrap_name (sw : Software) :
    (fill_bootstrap sw).name = sw.name := by
  unfold fill_bootstrap
  split <;> rfl

@[simp] theorem fill_bootstrap_gcc (sw : Software) :
    (fill_bootstrap sw).gcc = sw.gcc := by
  unfold fill_bootstrap
  split <;> rfl

@[simp] theorem fill_bootstrap_spack (sw : Software) :
    (fill_bootstrap sw).spack = sw.spack := by
  unfold fill_bootstrap
  split <;> rfl

@[simp] theorem fill_bootstrap_descr (sw : Software) :
    (fill_bootstrap sw).descr = sw.descr := by
  unfold fill_bootstrap
  split <;> rfl

@[simp] theorem fill_bootstrap_spec (sw : Software) :
    (fill_bootstrap sw).spec = sw.spec := by
  unfold fill_bootstrap
  split <;> rfl

@[simp] theorem fill_bootstrap_variants (sw : Software) :
    (fill_bootstrap sw).variants = sw.variants := by
  unfold fill_bootstrap
  split <;> rfl

@[simp] theorem fill_bootstrap_mpi (sw : Software) :
    (fill_bootstrap sw).mpi = sw.mpi := by
  unfold fill_bootstrap
  split <;> rfl

@[simp] theorem fill_bootstrap_cuda (sw : Software) :
    (fill_bootstrap sw).cuda = sw.cuda := by
  unfold fill_bootstrap
  split <;> rfl

@[simp] theorem fill_gcc_name (sw : Software) :
    (fill_gcc sw).name = sw.name := by
  unfold fill_gcc
  split <;> rfl

@[simp] theorem fill_gcc_spack (sw : Software) :
    (fill_gcc sw).spack = sw.spack := by
  unfold fill_gcc
  split <;> rfl

@[simp] theorem fill_gcc_descr (sw : Software) :
    (fill_gcc sw).descr = sw.descr := by
  unfold fill_gcc
  split <;> rfl

@[simp] theorem fill_gcc_spec (sw : Software) :
    (fill_gcc sw).spec = sw.spec := by
  unfold fill_gcc
  split <;> rfl

@[simp] theorem fill_gcc_variants (sw : Software) :
    (fill_gcc sw).variants = sw.variants := by
  unfold fill_gcc
  split <;> rfl

@[simp] theorem fill_gcc_mpi (sw : Software) :
    (fill_gcc sw).mpi = sw.mpi := by
  unfold fill_gcc
  split <;> rfl

@[simp] theorem fill_gcc_cuda (sw : Software) :
    (fill_gcc sw).cuda = sw.cuda := by
  unfold fill_gcc
  split <;> rfl

@[simp] theorem fill_spack_name (sw : Software) :
    (fill_spack sw).name = sw.name := by
  unfold fill_spack
  split <;> rfl

@[simp] theorem fill_spack_gcc (sw : Software) :
    (fill_spack sw).gcc = sw.gcc := by
  unfold fill_spack
  split <;> rfl

@[simp] theorem fill_spack_descr (sw : Software) :
    (fill_spack sw).descr = sw.descr := by
  unfold fill_spack
  split <;> rfl

@[simp] theorem fill_spack_spec (sw : Software) :
    (fill_spack sw).spec = sw.spec := by
  unfold fill_spack
  split <;> rfl

@[simp] theorem fill_spack_variants (sw : Software) :
    (fill_spack sw).variants = sw.variants := by
  unfold fill_spack
  split <;> rfl

@[simp] theorem fill_spack_mpi (sw : Software) :
    (fill_spack sw).mpi = sw.mpi := by
  unfold fill_spack
  split <;> rfl

@[simp] theorem fill_spack_cuda (sw : Software) :
    (fill_spack sw).cuda = sw.cuda := by
  unfold fill_spack
  split <;> rfl

@[simp] theorem fill_descr_name (n : String) (sw : Software) :
    (fill_descr n sw).name = sw.name := by
  unfold fill_descr
  split <;> rfl

@[simp] theorem fill_descr_gcc (n : String) (sw : Software) :
    (fill_descr n sw).gcc = sw.gcc := by
  unfold fill_descr
  split <;> rfl

@[simp] theorem fill_descr_spack (n : String) (sw : Software) :
    (fill_descr n sw).spack = sw.spack := by
  unfold fill_descr
  split <;> rfl

@[simp] theorem fill_descr_spec (n : String) (sw : Software) :
    (fill_descr n sw).spec = sw.spec := by
  unfold fill_descr
  split <;> rfl

@[simp] theorem fill_descr_variants (n : String) (sw : Software) :
    (fill_descr n sw).variants = sw.variants := by
  unfold fill_descr
  split <;> rfl

@[simp] theorem fill_descr_mpi (n : String) (sw : Software) :
    (fill_descr n sw).mpi = sw.mpi := by
  unfold fill_descr
  split <;> rfl

@[simp] theorem fill_descr_cuda (n : String) (sw : Software) :
    (fill_descr n sw).cuda = sw.cuda := by
  unfold fill_descr
  split <;> rfl

@[simp] theorem fill_spec_name (sw : Software) :
    (fill_spec sw).name = sw.name := by
  unfold fill_spec
  split <;> rfl

@[simp] theorem fill_spec_gcc (sw : Software) :
    (fill_spec sw).gcc = sw.gcc := by
  unfold fill_spec
  split <;> rfl

@[simp] theorem fill_spec_spack (sw : Software) :
    (fill_spec sw).spack = sw.spack := by
  unfold fill_spec
  split <;> rfl

@[simp] theorem fill_spec_descr (sw : Software) :
    (fill_spec sw).descr = sw.descr := by
  unfold fill_spec
  split <;> rfl

@[simp] theorem fill_spec_variants (sw : Software) :
    (fill_spec sw).variants = sw.variants := by
  unfold fill_spec
  split <;> rfl

@[simp] theorem fill_spec_mpi (sw : Software) :
    (fill_spec sw).mpi = sw.mpi := by
  unfold fill_spec
  split <;> rfl

@[simp] theorem fill_spec_cuda (sw : Software) :
    (fill_spec sw).cuda = sw.cuda := by
  unfold fill_spec
  split <;> rfl

@[simp] theorem transform_spec_name (n : String) (sw : Software) :
    (transform_spec n sw).name = sw.name := by
  unfold transform_spec
  split <;> rfl

@[simp] theorem transform_spec_gcc (n : String) (sw : Software) :
    (transform_spec n sw).gcc = sw.gcc := by
  unfold transform_spec
  split <;> rfl

@[simp] theorem transform_spec_spack (n : String) (sw : Software) :
    (transform_spec n sw).spack = sw.spack := by
  unfold transform_spec
  split <;> rfl

@[simp] theorem transform_spec_descr (n : String) (sw : Software) :
    (transform_spec n sw).descr = sw.descr := by
  unfold transform_spec
  split <;> rfl

@[simp] theorem transform_spec_variants (n : String) (sw : Software) :
    (transform_spec n sw).variants = sw.variants := by
  unfold transform_spec
  split <;> rfl

@[simp] theorem transform_spec_mpi (n : String) (sw : Software) :
    (transform_spec n sw).mpi = sw.mpi := by
  unfold transform_spec
  split <;> rfl

@[simp] theorem transform_spec_cuda (n : String) (sw : Software) :
    (transform_spec n sw).cuda = sw.cuda := by
  unfold transform_spec
  split <;> rfl

@[simp] theorem fill_variants_name (sw : Software) :
    (fill_variants sw).name = sw.name := by
  unfold fill_variants
  split <;> rfl

@[simp] theorem fill_variants_gcc (sw : Software) :
    (fill_variants sw).gcc = sw.gcc := by
  unfold fill_variants
  split <;> rfl

@[simp] theorem fill_variants_spack (sw : Software) :
    (fill_variants sw).spack = sw.spack := by
  unfold fill_variants
  split <;> rfl

@[simp] theorem fill_variants_descr (sw : Software) :
    (fill_variants sw).descr = sw.descr := by
  unfold fill_variants
  split <;> rfl

@[simp] theorem fill_variants_spec (sw : Software) :
    (fill_variants sw).spec = sw.spec := by
  unfold fill_variants
  split <;> rfl

@[simp] theorem fill_variants_mpi (sw : Software) :
    (fill_variants sw).mpi = sw.mpi := by
  unfold fill_variants
  split <;> rfl

@[simp] theorem fill_variants_cuda (sw : Software) :
    (fill_variants sw).cuda = sw.cuda := by
  unfold fill_variants
  split <;> rfl

@[simp] theorem fill_mpi_name (sw : Software) :
    (fill_mpi sw).name = sw.name := by
  unfold fill_mpi
  split <;> rfl

@[simp] theorem fill_mpi_gcc (sw : Software) :
    (fill_mpi sw).gcc = sw.gcc := by
  unfold fill_mpi
  split <;> rfl

@[simp] theorem fill_mpi_spack (sw : Software) :
    (fill_mpi sw).spack = sw.spack := by
  unfold fill_mpi
  split <;> rfl

@[simp] theorem fill_mpi_descr (sw : Software) :
    (fill_mpi sw).descr = sw.descr := by
  unfold fill_mpi
  split <;> rfl

@[simp] theorem fill_mpi_spec (sw : Software) :
    (fill_mpi sw).spec = sw.spec := by
  unfold fill_mpi
  split <;> rfl

@[simp] theorem fill_mpi_variants (sw : Software) :
    (fill_mpi sw).variants = sw.variants := by
  unfold fill_mpi
  split <;> rfl

@[simp] theorem fill_mpi_cuda (sw : Software) :
    (fill_mpi sw).cuda = sw.cuda := by
  unfold fill_mpi
  split <;> rfl

@[simp] theorem transform_mpi_name (sw : Software) :
    (transform_mpi sw).name = sw.name := by
  unfold transform_mpi
  split <;> first
    | rfl
    | (split <;> rfl)

@[simp] theorem transform_mpi_gcc (sw : Software) :
    (transform_mpi sw).gcc = sw.gcc := by
  unfold transform_mpi
  split <;> first
    | rfl
    | (split <;> rfl)

@[simp] theorem transform_mpi_spack (sw : Software) :
    (transform_mpi sw).spack = sw.spack := by
  unfold transform_mpi
  split <;> first
    | rfl
    | (split <;> rfl)

@[simp] theorem transform_mpi_descr (sw : Software) :
    (transform_mpi sw).descr = sw.descr := by
  unfold transform_mpi
  split <;> first
    | rfl
    | (split <;> rfl)

@[simp] theorem transform_mpi_spec (sw : Software) :
    (transform_mpi sw).spec = sw.spec := by
  unfold transform_mpi
  split <;> first
    | rfl
    | (split <;> rfl)

@[simp] theorem transform_mpi_variants (sw : Software) :
    (transform_mpi sw).variants = sw.variants := by
  unfold transform_mpi
  split <;> first
    | rfl
    | (split <;> rfl)

@[simp] theorem transform_mpi_cuda (sw : Software) :
    (transform_mpi sw).cuda = sw.cuda := by
  unfold transform_mpi
  split <;> first
    | rfl
    | (split <;> rfl)

@[simp] theorem fill_gcc_gcc (sw : Software) :
    (fill_gcc sw).gcc =
      if sw.gcc.isNone then some UENV_DEFAULT_COMPILER else sw.gcc := by
  unfold fill_gcc
  split <;> simp_all

@[simp] theorem fill_spack_spack (sw : Software) :
    (fill_spack sw).spack =
      if sw.spack.isNone then some DEFAULT_SPACK else sw.spack := by
  unfold fill_spack
  split <;> simp_all

@[simp] theorem fill_descr_descr (n : String) (sw : Software) :
    (fill_descr n sw).descr =
      if sw.descr.isNone then some n else sw.descr := by
  unfold fill_descr
  split <;> simp_all

@[simp] theorem fill_spec_spec (sw : Software) :
    (fill_spec sw).spec =
      if sw.spec.isNone then some (.str "") else sw.spec := by
  unfold fill_spec
  split <;> simp_all

@[simp] theorem fill_variants_variants (sw : Software) :
    (fill_variants sw).variants =
      if sw.variants.isNone then some (.list ["+mpi"]) else sw.variants := by
  unfold fill_variants
  split <;> simp_all

@[simp] theorem fill_mpi_mpi (sw : Software) :
    (fill_mpi sw).mpi =
      if sw.mpi.isNone then some (.list ["spec: cray-mpich"]) else sw.mpi := by
  unfold fill_mpi
  split <;> simp_all

theorem transform_spec_spec_str (n : String) (sw : Software) (s : String)
    (h : sw.spec = some (.str s)) :
    (transform_spec n sw).spec = some (.str ("  - " ++ n ++ " " ++ s)) := by
  simp [transform_spec, h]

theorem transform_spec_spec_list (n : String) (sw : Software)
    (l : List String) (h : sw.spec = some (.list l)) :
    (transform_spec n sw).spec =
      some (.str (pyJoin "\n" (l.map (fun spec => "  - " ++ spec)))) := by
  simp [transform_spec, h]

theorem transform_mpi_mpi_list (sw : Software) (l : List String)
    (h : sw.mpi = some (.list l)) :
    (transform_mpi sw).mpi = some (.list l) := by
  simp [transform_mpi, h]

theorem transform_mpi_mpi_str (sw : Software) (m : String)
    (h : sw.mpi = some (.str m)) :
    (transform_mpi sw).mpi =
      (if !pyStartsWith m "spec:" then some (.list ["spec: " ++ m])
       else some (.list [m])) := by
  simp only [transform_mpi, h]
  split <;> rfl

theorem stage1_name (n : String) (sw : Software) :
    (validate_stage1 n sw).name = sw.name := by
  simp [validate_stage1]

theorem stage1_gcc_prop (n : String) (sw : Software)
    (hg : optStrOk sw.gcc = true) :
    optStrFilled (validate_stage1 n sw).gcc = true := by
  rcases hgx : sw.gcc with _ | g
  · simp [validate_stage1, hgx, optStrFilled, UENV_DEFAULT_COMPILER]
  · rw [hgx] at hg
    have hB : (validate_stage1 n sw).gcc = some g := by
      simp [validate_stage1, hgx]
    rw [hB]
    simpa [optStrOk, optStrFilled] using hg

theorem stage1_spack_prop (n : String) (sw : Software)
    (hsk : optStrOk sw.spack = true) :
    optStrFilled (validate_stage1 n sw).spack = true := by
  rcases hsx : sw.spack with _ | s
  · simp [validate_stage1, hsx, optStrFilled, DEFAULT_SPACK]
  · rw [hsx] at hsk
    have hB : (validate_stage1 n sw).spack = some s := by
      simp [validate_stage1, hsx]
    rw [hB]
    simpa [optStrOk, optStrFilled] using hsk

theorem stage1_descr_prop (n : String) (sw : Software) (hne : n ≠ "")
    (hd : optStrOk sw.descr = true) :
    optStrFilled (validate_stage1 n sw).descr = true := by
  rcases hdx : sw.descr with _ | d
  · have hB : (validate_stage1 n sw).descr = some n := by
      simp [validate_stage1, hdx]
    rw [hB]
    simpa [optStrFilled] using hne
  · rw [hdx] at hd
    have hB : (validate_stage1 n sw).descr = some d := by
      simp [validate_stage1, hdx]
    rw [hB]
    simpa [optStrOk, optStrFilled] using hd

theorem stage1_spec_prop (n : String) (sw : Software) (hne : n ≠ "")
    (hsp : listFieldOk sw.spec = true) :
    ∃ s, (validate_stage1 n sw).spec = some (.str s) ∧ s ≠ "" := by
  rcases hsx : sw.spec with _ | (s | l)
  · have h1 : (fill_spec (fill_descr n (fill_spack (fill_gcc
        (fill_bootstrap sw))))).spec = some (.str "") := by
      simp [hsx]
    refine ⟨"  - " ++ n ++ " " ++ "", ?_, ?_⟩
    · simp only [validate_stage1, transform_mpi_spec, fill_mpi_spec,
        fill_variants_spec]
      rw [transform_spec_spec_str n _ "" h1]
    · exact append_ne_empty_left _ _ (append_ne_empty_left _ _
        (append_ne_empty_left _ _ (by decide)))
  · have h1 : (fill_spec (fill_descr n (fill_spack (fill_gcc
        (fill_bootstrap sw))))).spec = some (.str s) := by
      simp [hsx]
    refine ⟨"  - " ++ n ++ " " ++ s, ?_, ?_⟩
    · simp only [validate_stage1, transform_mpi_spec, fill_mpi_spec,
        fill_variants_spec]
      rw [transform_spec_spec_str n _ s h1]
    · exact append_ne_empty_left _ _ (append_ne_empty_left _ _
        (append_ne_empty_left _ _ (by decide)))
  · rw [hsx] at hsp
    have hl : l ≠ [] := by simpa [listFieldOk] using hsp
    rcases l with _ | ⟨a, as⟩
    · exact absurd rfl hl
    have h1 : (fill_spec (fill_descr n (fill_spack (fill_gcc
        (fill_bootstrap sw))))).spec = some (.list (a :: as)) := by
      simp [hsx]
    refine ⟨pyJoin "\n" (("  - " ++ a) :: as.map (fun spec => "  - " ++ spec)),
      ?_, ?_⟩
    · simp only [validate_stage1, transform_mpi_spec, fill_mpi_spec,
        fill_variants_spec]
      rw [transform_spec_spec_list n _ _ h1]
      simp only [List.map_cons]
    · exact pyJoin_ne_empty _ _ _ (append_ne_empty_left _ _ (by decide))

theorem stage1_variants_prop (n : String) (sw : Software)
    (hv : listFieldOk sw.variants = true) :
    (∃ v, (validate_stage1 n sw).variants = some (.str v)) ∨
      (∃ l, (validate_stage1 n sw).variants = some (.list l) ∧ l ≠ []) := by
  rcases hvx : sw.variants with _ | (v | l)
  · refine Or.inr ⟨["+mpi"], ?_, by simp⟩
    simp [validate_stage1, hvx]
  · refine Or.inl ⟨v, ?_⟩
    simp [validate_stage1, hvx]
  · rw [hvx] at hv
    refine Or.inr ⟨l, ?_, by simpa [listFieldOk] using hv⟩
    simp [validate_stage1, hvx]

theorem stage1_mpi_prop (n : String) (sw : Software)
    (hm : mpiFieldOk sw.mpi = true) :
    ∃ l, (validate_stage1 n sw).mpi = some (.list l) ∧
      pyJoin "\n    " l ≠ "" := by
  rcases hmx : sw.mpi with _ | (m | l)
  · have h1 : (fill_mpi (fill_variants (transform_spec n (fill_spec
        (fill_descr n (fill_spack (fill_gcc (fill_bootstrap sw)))))))).mpi =
        some (.list ["spec: cray-mpich"]) := by
      simp [hmx]
    refine ⟨["spec: cray-mpich"], ?_, by decide⟩
    simp only [validate_stage1]
    exact transform_mpi_mpi_list _ _ h1
  · have h1 : (fill_mpi (fill_variants (transform_spec n (fill_spec
        (fill_descr n (fill_spack (fill_gcc (fill_bootstrap sw)))))))).mpi =
        some (.str m) := by
      simp [hmx]
    have h2 := transform_mpi_mpi_str _ m h1
    by_cases hpre : pyStartsWith m "spec:" = true
    · refine ⟨[m], ?_, ?_⟩
      · simp only [validate_stage1]
        rw [h2]
        simp [hpre]
      · have hm2 := pyStartsWith_spec_ne_empty m hpre
        simpa [pyJoin] using hm2
    · refine ⟨["spec: " ++ m], ?_, ?_⟩
      · simp only [validate_stage1]
        rw [h2]
        simp [hpre]
      · have hm2 : ("spec: " ++ m) ≠ "" :=
          append_ne_empty_left _ _ (by decide)
        simpa [pyJoin] using hm2
  · rw [hmx] at hm
    have hm2 : ¬l = [] ∧ ¬l = [""] := by simpa [mpiFieldOk] using hm
    have h1 : (fill_mpi (fill_variants (transform_spec n (fill_spec
        (fill_descr n (fill_spack (fill_gcc (fill_bootstrap sw)))))))).mpi =
        some (.list l) := by
      simp [hmx]
    refine ⟨l, ?_, pyJoin_ne_of_ok _ _ (by decide) hm2.1 hm2.2⟩
    simp only [validate_stage1]
    exact transform_mpi_mpi_list _ _ h1

theorem apply_cuda_fields (sw C : Software) (hok : apply_cuda sw = .ok C) :
    C.name = sw.name ∧ C.gcc = sw.gcc ∧ C.spack = sw.spack ∧
    C.descr = sw.descr ∧ C.spec = sw.spec ∧
    ((∃ v, sw.variants = some (.str v)) ∨
        (∃ l, sw.variants = some (.list l) ∧ l ≠ []) →
      (∃ v, C.variants = some (.str v)) ∨
        (∃ l, C.variants = some (.list l) ∧ l ≠ [])) ∧
    ((∃ l, sw.mpi = some (.list l) ∧ pyJoin "\n    " l ≠ "") →
      ∃ l, C.mpi = some (.list l) ∧ pyJoin "\n    " l ≠ "") := by
  rcases hc : sw.cuda with _ | cuda0
  · have heq : apply_cuda sw = .ok sw := by
      rw [apply_cuda, hc]
      rfl
    rw [heq] at hok
    injection hok with h
    subst h
    exact ⟨rfl, rfl, rfl, rfl, rfl, fun h => h, fun h => h⟩
  · rw [apply_cuda, hc] at hok
    dsimp only at hok
    repeat' split at hok
    all_goals first
      | exact Except.noConfusion hok
      | (injection hok with h
         subst h
         refine ⟨rfl, rfl, rfl, rfl, rfl, fun hvv => ?_, fun hmm2 => ?_⟩ <;>
           first
            | (refine ⟨_, rfl, ?_⟩
               exact pyJoin_concat_ne _ _ _ (by decide) (by decide))
            | exact Or.inl ⟨_, rfl⟩
            | (refine Or.inr ⟨_, rfl, ?_⟩
               first
                | (simp
                   done)
                | exact ne_nil_of_contains _ "+cuda" (by simp_all)
                | (rcases hvv with ⟨v, hv⟩ | ⟨l2, hl2, hlne2⟩ <;> simp_all
                   done))
            | (rcases hvv with ⟨v, hv⟩ | ⟨l2, hl2, hlne2⟩ <;> simp_all
               done)
            | (obtain ⟨l0, hl0, _⟩ := hmm2
               simp_all
               done))

theorem transform_variants_fields (sw : Software)
    (hvar : (∃ v, sw.variants = some (.str v)) ∨
      (∃ l, sw.variants = some (.list l) ∧ l ≠ [])) :
    (∃ v2, (transform_variants sw).variants = some (.str v2) ∧ v2 ≠ "") ∧
    (transform_variants sw).name = sw.name ∧
    (transform_variants sw).gcc = sw.gcc ∧
    (transform_variants sw).spack = sw.spack ∧
    (transform_variants sw).descr = sw.descr ∧
    (transform_variants sw).spec = sw.spec ∧
    (transform_variants sw).mpi = sw.mpi := by
  rcases hvar with ⟨v, hv⟩ | ⟨l, hl, hlne⟩
  · refine ⟨⟨"  - " ++ sw.name.getD "" ++ " " ++ v, ?_, ?_⟩,
      ?_, ?_, ?_, ?_, ?_, ?_⟩
    · rw [transform_variants, hv]
    · exact append_ne_empty_left _ _ (append_ne_empty_left _ _
        (append_ne_empty_left _ _ (by decide)))
    · rw [transform_variants, hv]
    · rw [transform_variants, hv]
    · rw [transform_variants, hv]
    · rw [transform_variants, hv]
    · rw [transform_variants, hv]
    · rw [transform_variants, hv]
  · rcases l with _ | ⟨a, as⟩
    · exact absurd rfl hlne
    refine ⟨⟨pyJoin "\n" (("  - " ++ a) :: as.map (fun v => "  - " ++ v)),
      ?_, ?_⟩, ?_, ?_, ?_, ?_, ?_, ?_⟩
    · rw [transform_variants, hl]
      simp only [List.map_cons]
    · exact pyJoin_ne_empty _ _ _ (append_ne_empty_left _ _ (by decide))
    · rw [transform_variants, hl]
    · rw [transform_variants, hl]
    · rw [transform_variants, hl]
    · rw [transform_variants, hl]
    · rw [transform_variants, hl]
    · rw [transform_variants, hl]

theorem join_mpi_fields (sw : Software)
    (hmpi : ∃ l, sw.mpi = some (.list l) ∧ pyJoin "\n    " l ≠ "") :
    (∃ s2, (join_mpi sw).mpi = some (.str s2) ∧ s2 ≠ "") ∧
    (join_mpi sw).name = sw.name ∧ (join_mpi sw).gcc = sw.gcc ∧
    (join_mpi sw).spack = sw.spack ∧ (join_mpi sw).descr = sw.descr ∧
    (join_mpi sw).spec = sw.spec ∧ (join_mpi sw).variants = sw.variants := by
  obtain ⟨l, hl, hlne⟩ := hmpi
  refine ⟨⟨pyJoin "\n    " l, ?_, hlne⟩, ?_, ?_, ?_, ?_, ?_, ?_⟩ <;>
    rw [join_mpi, hl]

theorem set_envname_fields (sw : Software) (n : String)
    (hn : sw.name = some n) (hne : n ≠ "") :
    (∃ m, (set_envname sw).name = some m ∧ m ≠ "") ∧
    (set_envname sw).gcc = sw.gcc ∧ (set_envname sw).spack = sw.spack ∧
    (set_envname sw).descr = sw.descr ∧ (set_envname sw).spec = sw.spec ∧
    (set_envname sw).variants = sw.variants ∧
    (set_envname sw).mpi = sw.mpi := by
  unfold set_envname
  dsimp only
  split_ifs with h1 h2
  · exact ⟨⟨n ++ "@latest", by simp [hn], append_ne_empty_left _ _ hne⟩,
      rfl, rfl, rfl, rfl, rfl, rfl⟩
  · exact ⟨⟨n, by simp [hn], hne⟩, rfl, rfl, rfl, rfl, rfl, rfl⟩
  · exact ⟨⟨n, hn, hne⟩, rfl, rfl, rfl, rfl, rfl, rfl⟩

theorem append_cuda_fields (sw E : Software) (n : String)
    (hok : append_cuda_suffix sw = .ok E) (hn : sw.name = some n)
    (hne : n ≠ "") :
    (∃ m, E.name = some m ∧ m ≠ "") ∧ E.gcc = sw.gcc ∧ E.spack = sw.spack ∧
    E.descr = sw.descr ∧ E.spec = sw.spec ∧ E.variants = sw.variants ∧
    E.mpi = sw.mpi := by
  rcases hc : sw.cuda with _ | c
  · have heq : append_cuda_suffix sw = .ok sw := by
      rw [append_cuda_suffix, hc]
      rfl
    rw [heq] at hok
    injection hok with h
    subst h
    exact ⟨⟨n, hn, hne⟩, rfl, rfl, rfl, rfl, rfl, rfl⟩
  · rw [append_cuda_suffix, hc] at hok
    dsimp only at hok
    repeat' split at hok
    all_goals first
      | exact Except.noConfusion hok
      | (injection hok with h
         subst h
         first
          | exact ⟨⟨n, hn, hne⟩, rfl, rfl, rfl, rfl, rfl, rfl⟩
          | (refine ⟨⟨_, rfl, ?_⟩, rfl, rfl, rfl, rfl, rfl, rfl⟩
             simp only [hn, Option.getD_some]
             exact append_ne_empty_left _ _ hne))

theorem append_gcc_fields (sw : Software) (n : String) (hn : sw.name = some n)
    (hne : n ≠ "") :
    (∃ m, (append_gcc_suffix sw).name = some m ∧ m ≠ "") ∧
    (append_gcc_suffix sw).gcc = sw.gcc ∧
    (append_gcc_suffix sw).spack = sw.spack ∧
    (append_gcc_suffix sw).descr = sw.descr ∧
    (append_gcc_suffix sw).spec = sw.spec ∧
    (append_gcc_suffix sw).variants = sw.variants ∧
    (append_gcc_suffix sw).mpi = sw.mpi := by
  unfold append_gcc_suffix
  dsimp only
  split_ifs with h1 h2
  · refine ⟨⟨_, rfl, ?_⟩, rfl, rfl, rfl, rfl, rfl, rfl⟩
    simp only [hn, Option.getD_some]
    exact append_ne_empty_left _ _ hne
  · exact ⟨⟨n, hn, hne⟩, rfl, rfl, rfl, rfl, rfl, rfl⟩
  · exact ⟨⟨n, hn, hne⟩, rfl, rfl, rfl, rfl, rfl, rfl⟩

theorem validate_tail_filled (sw r : Software) (n : String)
    (hok : validate_tail sw = .ok r)
    (hn : sw.name = some n) (hne : n ≠ "")
    (hg : optStrFilled sw.gcc = true)
    (hsk : optStrFilled sw.spack = true)
    (hd : optStrFilled sw.descr = true)
    (hsp : ∃ s, sw.spec = some (.str s) ∧ s ≠ "")
    (hvar : (∃ v, sw.variants = some (.str v)) ∨
      (∃ l, sw.variants = some (.list l) ∧ l ≠ []))
    (hmpi : ∃ l, sw.mpi = some (.list l) ∧ pyJoin "\n    " l ≠ "") :
    optStrFilled r.name = true ∧ optStrFilled r.gcc = true ∧
    optStrFilled r.spack = true ∧ optStrFilled r.descr = true ∧
    optValFilled r.spec = true ∧ optValFilled r.variants = true ∧
    optValFilled r.mpi = true := by
  cases hap : apply_cuda sw with
  | error e =>
    rw [validate_tail, hap] at hok
    exact Except.noConfusion (show Except.error e = Except.ok r from hok)
  | ok C =>
    obtain ⟨hCn, hCg, hCsk, hCd, hCsp, hCvar, hCmpi⟩ :=
      apply_cuda_fields sw C hap
    have hvt : validate_tail sw =
        Except.bind (append_cuda_suffix (set_envname (join_mpi
          (transform_variants C))))
          (fun sw2 => pure (append_gcc_suffix sw2)) := by
      rw [validate_tail, hap]
      rfl
    rw [hvt] at hok
    obtain ⟨⟨v2, hv2, hv2ne⟩, tvn, tvg, tvsk, tvd, tvsp, tvm⟩ :=
      transform_variants_fields C (hCvar hvar)
    have hmT : ∃ l, (transform_variants C).mpi = some (.list l) ∧
        pyJoin "\n    " l ≠ "" := by
      rw [tvm]
      exact hCmpi hmpi
    obtain ⟨⟨s2, hs2, hs2ne⟩, jmn, jmg, jmsk, jmd, jmsp, jmv⟩ :=
      join_mpi_fields (transform_variants C) hmT
    have hnJ : (join_mpi (transform_variants C)).name = some n := by
      rw [jmn, tvn, hCn, hn]
    obtain ⟨⟨n2, hn2, hn2ne⟩, seg, sesk, sed, sesp, sev, sem⟩ :=
      set_envname_fields (join_mpi (transform_variants C)) n hnJ hne
    cases hacs : append_cuda_suffix (set_envname (join_mpi
        (transform_variants C))) with
    | error e =>
      rw [hacs] at hok
      exact Except.noConfusion (show Except.error e = Except.ok r from hok)
    | ok E =>
      rw [hacs] at hok
      have hr : append_gcc_suffix E = r := by
        have h2 : Except.ok (append_gcc_suffix E) = Except.ok r := hok
        injection h2
      subst hr
      obtain ⟨⟨m3, hm3, hm3ne⟩, acg, acsk, acd, acsp, acv, acm⟩ :=
        append_cuda_fields (set_envname (join_mpi (transform_variants C))) E
          n2 hacs hn2 hn2ne
      obtain ⟨⟨m4, hm4, hm4ne⟩, agg, agsk, agd, agsp, agv, agm⟩ :=
        append_gcc_fields E m3 hm3 hm3ne
      refine ⟨?_, ?_, ?_, ?_, ?_, ?_, ?_⟩
      · rw [hm4]
        simpa [optStrFilled] using hm4ne
      · rw [agg, acg, seg, jmg, tvg, hCg]
        exact hg
      · rw [agsk, acsk, sesk, jmsk, tvsk, hCsk]
        exact hsk
      · rw [agd, acd, sed, jmd, tvd, hCd]
        exact hd
      · rw [agsp, acsp, sesp, jmsp, tvsp, hCsp]
        obtain ⟨s, hs, hsne⟩ := hsp
        rw [hs]
        simpa [optValFilled] using hsne
      · rw [agv, acv, sev, jmv, hv2]
        simpa [optValFilled] using hv2ne
      · rw [agm, acm, sem, hs2]
        simpa [optValFilled] using hs2ne

/-- C2 counterexample: a descriptor whose `spec` field is present as an
empty list of strings comes out of `validate_uenv_software_fields` with an
empty `spec` value. -/
theorem validate_nonempty_counterexample :
    validate_uenv_software_fields { name := some "x", spec := some (.list []) } =
      .ok { name := some "x@latestgcc13", bootstrap := some "gcc@13",
            gcc := some "gcc@13", spack := some "v0.23.1", descr := some "x",
            spec := some (.str ""), variants := some (.str "  - +mpi"),
            mpi := some (.str "spec: cray-mpich"), envname := some "x" } ∧
    optValFilled (some (.str "")) = false := by
  exact ⟨rfl, rfl⟩

/-- C2 (amended): a software descriptor without a `name` key makes
`validate_uenv_software_fields` raise `ValueError`.  Whenever the function
returns on a descriptor (rather than raising), if the descriptor's `name`
was a non-empty string, its `gcc`, `spack` and `descr` values, when
present, were non-empty strings, its `spec` and `variants` values, when
present as lists, were non-empty lists, and its `mpi` value, when present
as a list, was neither the empty list nor the one-element list holding the
empty string, then the dict has non-empty values for all of the keys
`name`, `gcc`, `spack`, `descr`, `spec`, `variants` and `mpi`. -/
theorem validate_fields_nonempty :
    (∀ sw : Software, sw.name = none →
      validate_uenv_software_fields sw =
        .error (.valueError "Found software without a name entry")) ∧
    (∀ (sw r : Software) (n : String),
      validate_uenv_software_fields sw = .ok r →
      sw.name = some n → n ≠ "" →
      optStrOk sw.gcc = true → optStrOk sw.spack = true →
      optStrOk sw.descr = true →
      listFieldOk sw.spec = true → listFieldOk sw.variants = true →
      mpiFieldOk sw.mpi = true →
      optStrFilled r.name = true ∧ optStrFilled r.gcc = true ∧
      optStrFilled r.spack = true ∧ optStrFilled r.descr = true ∧
      optValFilled r.spec = true ∧ optValFilled r.variants = true ∧
      optValFilled r.mpi = true) := by
  constructor
  · intro sw h
    rw [validate_uenv_software_fields, h]
    rfl
  · intro sw r n hok hn hne hg hsk hd hsp hv hm
    have hok2 : validate_tail (validate_stage1 n sw) = .ok r := by
      rw [validate_uenv_software_fields, hn] at hok
      exact hok
    refine validate_tail_filled (validate_stage1 n sw) r n hok2 ?_ hne
      (stage1_gcc_prop n sw hg) (stage1_spack_prop n sw hsk)
      (stage1_descr_prop n sw hne hd) (stage1_spec_prop n sw hne hsp)
      (stage1_variants_prop n sw hv) (stage1_mpi_prop n sw hm)
    rw [stage1_name]
    exact hn

/-- Witness for C2: the GROMACS descriptor satisfies the hypotheses,
`validate_uenv_software_fields` returns on it, and the result has all seven
fields non-empty. -/
theorem validate_fields_nonempty_witness :
    optStrFilled gromacsValidatedOnce.name = true ∧
    optStrFilled gromacsValidatedOnce.gcc = true ∧
    optStrFilled gromacsValidatedOnce.spack = true ∧
    optStrFilled gromacsValidatedOnce.descr = true ∧
    optValFilled gromacsValidatedOnce.spec = true ∧
    optValFilled gromacsValidatedOnce.variants = true ∧
    optValFilled gromacsValidatedOnce.mpi = true :=
  validate_fields_nonempty.2 gromacsDescriptor gromacsValidatedOnce
    "gromacs@2024.3" (by rfl) (by rfl) (by decide) (by rfl) (by rfl) (by rfl)
    (by rfl) (by rfl) (by rfl)


theorem get_file_truthy (file : String) (ext : Option StrOrList)
    (h : pyTruthyExt ext = true) :
    get_file file ext = .error (.nameError "pathlib") := by
  rw [get_file, if_pos h, if_neg (by decide)]

theorem filterLevel_truthy (d f : String) (fns : List String)
    (ext : Option StrOrList) (h : pyTruthyExt ext = true) :
    filterLevel d (f :: fns) ext = .error (.nameError "pathlib") := by
  simp [filterLevel, get_file_truthy _ _ h, Bind.bind, Except.bind]

theorem filterLevel_none (d : String) (fns : List String) :
    filterLevel d fns none = .ok (fns.map (pyPathJoin d)) := by
  induction fns with
  | nil => rfl
  | cons f fs ih =>
    simp [filterLevel, get_file, pyTruthyExt, Bind.bind, Except.bind, ih]

theorem walkFiles_none (levels : List (String × List String)) :
    walkFiles levels none =
      .ok (levels.flatMap fun lvl => lvl.2.map (pyPathJoin lvl.1)) := by
  induction levels with
  | nil => rfl
  | cons lvl rest ih =>
    simp [walkFiles, filterLevel_none, Bind.bind, Except.bind, ih]

theorem walkFiles_ok_empty (levels : List (String × List String))
    (ext : Option StrOrList)
    (h : (levels.flatMap fun lvl => lvl.2.map (pyPathJoin lvl.1)) = []) :
    walkFiles levels ext = .ok [] := by
  induction levels with
  | nil => rfl
  | cons lvl rest ih =>
    simp only [List.flatMap_cons, List.append_eq_nil] at h
    obtain ⟨h1, h2⟩ := h
    have hfns : lvl.2 = [] := by
      cases hl : lvl.2 with
      | nil => rfl
      | cons a as => rw [hl] at h1; simp at h1
    rw [walkFiles, hfns]
    simp [filterLevel, Bind.bind, Except.bind, ih h2]

theorem walkFiles_truthy (levels : List (String × List String))
    (ext : Option StrOrList) (h : pyTruthyExt ext = true)
    (hne : (levels.flatMap fun lvl => lvl.2.map (pyPathJoin lvl.1)) ≠ []) :
    walkFiles levels ext = .error (.nameError "pathlib") := by
  induction levels with
  | nil => simp at hne
  | cons lvl rest ih =>
    cases hl : lvl.2 with
    | nil =>
      rw [walkFiles, hl]
      have hne2 : (rest.flatMap fun l => l.2.map (pyPathJoin l.1)) ≠ [] := by
        simp only [List.flatMap_cons, hl, List.map_nil, List.nil_append] at hne
        exact hne
      simp [filterLevel, Bind.bind, Except.bind, ih hne2]
    | cons f fns =>
      rw [walkFiles, hl]
      simp [filterLevel_truthy _ _ _ _ h, Bind.bind, Except.bind]

/-- C9 counterexample: an empty list is a non-None `extensions` argument,
yet with a path that is an existing file the call returns the file instead of
raising `NameError` (Python truthiness: `if extensions:` is false for an
empty list). -/
theorem get_all_files_falsy_extensions :
    get_all_files_in_paths (fun _ => .file) ["a"] (some (.list [])) false =
      .ok ["a"] ∧ (some (StrOrList.list []) : Option StrOrList) ≠ none := by
  exact ⟨rfl, by decide⟩

/-- C9 (amended): for every call of `get_all_files_in_paths` with a truthy
(non-None and non-empty) `extensions` argument and a paths list that leads to
at least one candidate file, the function raises `NameError` because the
inner helper `_get_file` references `pathlib`, which is never imported in the
module; with `extensions=None` no such error occurs and every encountered
file is returned. -/
theorem get_all_files_name_error :
    (∀ (fs : String → FSEntry) (paths : List String)
        (extensions : Option StrOrList) (recursive : Bool),
      pyTruthyExt extensions = true →
      encounteredFiles fs paths recursive ≠ [] →
      get_all_files_in_paths fs paths extensions recursive =
        .error (.nameError "pathlib")) ∧
    (∀ (fs : String → FSEntry) (paths : List String) (recursive : Bool),
      get_all_files_in_paths fs paths none recursive =
        .ok (encounteredFiles fs paths recursive)) := by
  constructor
  · intro fs paths extensions recursive htr
    induction paths with
    | nil => intro hne; simp [encounteredFiles] at hne
    | cons path rest ih =>
      intro hne
      cases hf : fs path with
      | file =>
        simp [get_all_files_in_paths, hf, get_file_truthy _ _ htr,
          Bind.bind, Except.bind]
      | dir levels =>
        by_cases hL : ((if recursive then levels else levels.take 1).flatMap
            fun lvl => lvl.2.map (pyPathJoin lvl.1)) = []
        · have hrest : encounteredFiles fs rest recursive ≠ [] := by
            simp only [encounteredFiles, List.flatMap_cons, hf, hL,
              List.nil_append] at hne
            exact hne
          simp [get_all_files_in_paths, hf, walkFiles_ok_empty _ _ hL,
            Bind.bind, Except.bind, ih hrest]
        · simp [get_all_files_in_paths, hf, walkFiles_truthy _ _ htr hL,
            Bind.bind, Except.bind]
      | missing =>
        have hrest : encounteredFiles fs rest recursive ≠ [] := by
          simp only [encounteredFiles, List.flatMap_cons, hf,
            List.nil_append] at hne
          exact hne
        simp [get_all_files_in_paths, hf, Bind.bind, Except.bind, ih hrest]
  · intro fs paths recursive
    induction paths with
    | nil => rfl
    | cons path rest ih =>
      cases hf : fs path with
      | file =>
        simp [get_all_files_in_paths, hf, get_file, pyTruthyExt,
          Bind.bind, Except.bind, ih, encounteredFiles]
      | dir levels =>
        simp [get_all_files_in_paths, hf, walkFiles_none,
          Bind.bind, Except.bind, ih, encounteredFiles]
      | missing =>
        simp [get_all_files_in_paths, hf, Bind.bind, Except.bind, ih,
          encounteredFiles]

/-- Witness for C9: a concrete call with a truthy string extension on an
existing file raises the `NameError`, and with `None` it returns the file. -/
theorem get_all_files_name_error_witness :
    get_all_files_in_paths (fun _ => .file) ["b"] (some (.str ".txt")) false =
      .error (.nameError "pathlib") ∧
    get_all_files_in_paths (fun _ => .file) ["b"] none false = .ok ["b"] := by
  constructor
  · exact get_all_files_name_error.1 (fun _ => .file) ["b"]
      (some (.str ".txt")) false (by decide) (by decide)
  · exact get_all_files_name_error.2 (fun _ => .file) ["b"] false


theorem isPow2_iff (n : ℕ) : isPow2 n = true ↔ ∃ k, n = 2 ^ k := by
  simp only [isPow2, Bool.and_eq_true, decide_eq_true_eq]
  constructor
  · rintro ⟨h0, he⟩
    exact ⟨Nat.log 2 n, he.symm⟩
  · rintro ⟨k, rfl⟩
    exact ⟨Nat.pow_pos (by norm_num), by rw [Nat.log_pow (by norm_num)]⟩

theorem filter_range_pow2 (n : ℕ) :
    (List.range n).filter (fun m => isPow2 m) =
      (List.range (Nat.clog 2 n)).map (2 ^ ·) := by
  induction n with
  | zero => simp
  | succ n ih =>
    rw [List.range_succ, List.filter_append]
    cases hp : isPow2 n with
    | true =>
      obtain ⟨k, rfl⟩ := (isPow2_iff n).mp hp
      have hclog : Nat.clog 2 (2 ^ k) = k := Nat.clog_pow 2 k (by norm_num)
      have hsucc : Nat.clog 2 (2 ^ k + 1) = k + 1 := by
        apply le_antisymm
        · rw [← Nat.le_pow_iff_clog_le (by norm_num)]
          have h1 : 1 ≤ 2 ^ k := Nat.one_le_pow k 2 (by norm_num)
          have h2 : 2 ^ (k + 1) = 2 ^ k + 2 ^ k := by ring
          omega
        · rw [Nat.succ_le_iff, ← Nat.pow_lt_iff_lt_clog (by norm_num)]
          omega
      rw [hsucc, List.range_succ, List.map_append, ih, hclog]
      simp [hp]
    | false =>
      have hceq : Nat.clog 2 (n + 1) = Nat.clog 2 n := by
        rcases Nat.eq_zero_or_pos n with h0 | h0
        · subst h0
          simp [Nat.clog_one_right]
        · apply le_antisymm
          · rw [← Nat.le_pow_iff_clog_le (by norm_num)]
            have hle : n ≤ 2 ^ Nat.clog 2 n := Nat.le_pow_clog (by norm_num) n
            have hne : n ≠ 2 ^ Nat.clog 2 n := by
              intro he
              have ht : isPow2 n = true :=
                (isPow2_iff n).mpr ⟨Nat.clog 2 n, he⟩
              rw [ht] at hp
              simp at hp
            omega
          · exact Nat.clog_mono_right 2 (Nat.le_succ n)
      rw [hceq, ih]
      simp [hp]

theorem cpus_loop_eq (num_cores : ℕ) : ∀ d k,
    Nat.clog 2 num_cores - k = d → k ≤ Nat.clog 2 num_cores →
    cpus_loop num_cores k =
      ((List.range' k (Nat.clog 2 num_cores - k)).map (2 ^ ·)) ++
        [2 ^ Nat.clog 2 num_cores] := by
  intro d
  induction d with
  | zero =>
    intro k hd hk
    have hk2 : k = Nat.clog 2 num_cores :=
      le_antisymm hk (Nat.sub_eq_zero_iff_le.mp hd)
    have hstop : ¬ 2 ^ k < num_cores := by
      rw [hk2]
      exact not_lt.mpr (Nat.le_pow_clog (by norm_num) num_cores)
    rw [cpus_loop, if_neg hstop, hd]
    simp [hk2]
  | succ d ihd =>
    intro k hd hk
    have hklt : k < Nat.clog 2 num_cores := by omega
    have hlt : 2 ^ k < num_cores :=
      (Nat.pow_lt_iff_lt_clog (by norm_num)).mpr hklt
    rw [cpus_loop, if_pos hlt, ihd (k + 1) (by omega) (by omega)]
    rw [show Nat.clog 2 num_cores - k = (Nat.clog 2 num_cores - (k + 1)) + 1
      by omega]
    rw [List.range'_succ]
    simp

/-- C10: per partition, the `num_cores` values yielded by
`get_cpus_per_part` are the powers of two strictly less than the partition's
core count followed by one final entry carrying the smallest power of two
greater than or equal to the core count; and the last item yielded by the
generator is always the empty dict, as it also is for
`get_max_cpus_per_part`. -/
theorem cpus_per_part_powers :
    (∀ p : Partition,
      (partition_entries p).map PartItem.numCores =
        ((List.range p.num_cores).filter (fun m => isPow2 m)) ++
          [2 ^ Nat.clog 2 p.num_cores] ∧
      IsLeast {m : ℕ | isPow2 m = true ∧ p.num_cores ≤ m}
        (2 ^ Nat.clog 2 p.num_cores)) ∧
    (∀ (parts : List Partition) (avoid_local : Bool),
      (get_cpus_per_part parts avoid_local).getLast? = some .empty ∧
      (get_max_cpus_per_part parts avoid_local).getLast? = some .empty) := by
  constructor
  · intro p
    constructor
    · rw [filter_range_pow2]
      have hmap : (partition_entries p).map PartItem.numCores =
          cpus_loop p.num_cores 0 := by
        rw [partition_entries, List.map_map]
        have hcomp : (PartItem.numCores ∘ fun nthr =>
            PartItem.info p.name p.fullname p.num_cores nthr p.num_sockets) =
            id := by
          funext nthr
          rfl
        rw [hcomp, List.map_id]
      rw [hmap, cpus_loop_eq p.num_cores (Nat.clog 2 p.num_cores) 0 (by omega)
        (Nat.zero_le _)]
      rw [List.range_eq_range']
      simp
    · constructor
      · exact ⟨(isPow2_iff _).mpr ⟨_, rfl⟩, Nat.le_pow_clog (by norm_num) _⟩
      · rintro m ⟨hp, hle⟩
        obtain ⟨j, rfl⟩ := (isPow2_iff m).mp hp
        have : Nat.clog 2 p.num_cores ≤ j :=
          (Nat.le_pow_iff_clog_le (by norm_num)).mp hle
        exact Nat.pow_le_pow_right (by norm_num) this
  · intro parts avoid_local
    constructor <;>
      simp [get_cpus_per_part, get_max_cpus_per_part, List.getLast?_concat]

/-- C4: `validate_uenv_software_fields` rewrites the `name` field to append
the compiler suffix, and the transformation is not idempotent: on the
descriptor `{'name': 'gromacs@2024.3', 'spec': '+openmp'}` a second
application leaves the dict in a different state, the `spec` string getting
the `  - <name> ` prefix prepended a second time. -/
theorem validate_not_idempotent :
    validate_uenv_software_fields gromacsDescriptor =
      .ok gromacsValidatedOnce ∧
    validate_uenv_software_fields gromacsValidatedOnce =
      .ok gromacsValidatedTwice ∧
    gromacsValidatedTwice ≠ gromacsValidatedOnce ∧
    gromacsValidatedOnce.name = some "gromacs@2024.3gcc13" ∧
    gromacsValidatedOnce.spec = some (.str "  - gromacs@2024.3 +openmp") ∧
    gromacsValidatedTwice.spec =
      some (.str "  - gromacs@2024.3gcc13   - gromacs@2024.3 +openmp") := by
  refine ⟨by rfl, by rfl, by decide, rfl, rfl, rfl⟩

/-- C5: for every active value of the `benchmark` parameter of
`nwchem_mixin`, the class defines both an `assert_<toalphanum(b).lower()>`
and an `input_<toalphanum(b).lower()>` method, so the `getattr` lookups of
`assert_sanity` and `create_inpufile` never return `None`. -/
theorem benchmark_methods_exist :
    nwchem_benchmark.all (fun b =>
      (pyGetattr nwchem_mixin_methods
        ("assert_" ++ pyToLower (toalphanum b))).isSome &&
      (pyGetattr nwchem_mixin_methods
        ("input_" ++ pyToLower (toalphanum b))).isSome) = true := by
  decide

/-- C6: the DFT-energy regex matches the literal example log line shown in
the comment and its `energy` capture group is `-124.098908887656`, which
converts to the number `-124.098908887656`. -/
theorem dft_energy_regex_example :
    dftEnergySearch dftEnergyExampleLine = some "-124.098908887656" ∧
    pyFloat "-124.098908887656" = some (-124.098908887656 : ℚ) := by
  constructor
  · rfl
  · have hint : digitsVal ['1', '2', '4'] = 124 := by rfl
    have hfrac : digitsVal
        ['0', '9', '8', '9', '0', '8', '8', '8', '7', '6', '5', '6'] =
        98908887656 := by rfl
    have hshape : pyFloat "-124.098908887656" =
        some ((-1 : ℚ) * ((digitsVal ['1', '2', '4'] : ℚ) +
          (digitsVal
            ['0', '9', '8', '9', '0', '8', '8', '8', '7', '6', '5', '6'] : ℚ) /
            10 ^ (['0', '9', '8', '9', '0', '8', '8', '8', '7', '6', '5',
                   '6'] : List Char).length)) := rfl
    rw [hshape, hint, hfrac]
    norm_num

/-- C7 counterexample: `build_uenv_check.set_parent` raises a
`DependencyError` already when the dependency resolves to zero variants, a
case in which the variant list does not have more than one element. -/
theorem set_parent_zero_variants :
    build_uenv_check_set_parent "build_uenv_check_x" [] =
      .error ("build_uenv_check_x depends on more than one " ++
              "version of bootstrap_uenv_check") ∧
    ¬ ([] : List Nat).length > 1 := by
  exact ⟨rfl, by decide⟩

/-- C7 (amended): `build_uenv_check.set_parent` raises a `DependencyError`
precisely when the number of matching `bootstrap_uenv_check` variants is
different from one (zero or several); with a unique matching variant it
raises nothing and registers the dependency on that variant, and
`update_uenv_check.set_parent` behaves the same way with respect to
`build_uenv_check` variants. -/
theorem set_parent_unique_variant :
    (∀ (name : String) (variants : List Nat),
      (∃ v, build_uenv_check_set_parent name variants = .ok v) ↔
        variants.length = 1) ∧
    (∀ (name : String) (v : Nat),
      build_uenv_check_set_parent name [v] = .ok v) ∧
    (∀ (name : String) (variants : List Nat),
      (∃ v, update_uenv_check_set_parent name variants = .ok v) ↔
        variants.length = 1) ∧
    (∀ (name : String) (v : Nat),
      update_uenv_check_set_parent name [v] = .ok v) := by
  refine ⟨?_, fun _ _ => rfl, ?_, fun _ _ => rfl⟩ <;>
    · intro name variants
      match variants with
      | [] => simp [build_uenv_check_set_parent, update_uenv_check_set_parent]
      | [v] => simp [build_uenv_check_set_parent, update_uenv_check_set_parent]
      | v :: w :: tl =>
        simp [build_uenv_check_set_parent, update_uenv_check_set_parent]

/-- C8 counterexample: with no processor information available for the
current partition, `is_uenv_installed` skips the test (the skip exception
is raised by `skip_if_no_procinfo` from inside
`get_uenv_name_from_software`) even though the installed-uenvs list is
empty, so its uenv is certainly not already installed. -/
theorem is_uenv_installed_skips_without_procinfo :
    is_uenv_installed false (some "gh200") "daint" { name := some "x" } [] =
      .error (.skipTest
        "No processor info found for the current partition") := by
  rfl

/-- C8 (amended): `skip_if_not_slurm` skips exactly when the partition's
scheduler is neither the Slurm nor the Squeue backend (leaving the test
untouched otherwise).  `is_uenv_installed` first skips the test whenever
the current partition has no processor information (`skip_if_no_procinfo`,
called from `get_uenv_name_from_software`); with processor information
present it validates the descriptor and skips exactly when the validated
`uenv` descriptor is already among the aggregator's installed uenvs. -/
theorem skip_preconditions_characterized :
    (∀ sched : Scheduler,
      (skip_if_not_slurm sched).isSome = true ↔
        sched ≠ .slurm ∧ sched ≠ .squeue) ∧
    (∀ (procArch : Option String) (systemName : String) (uenv : Software)
        (uenvs_installed : List Software),
      is_uenv_installed false procArch systemName uenv uenvs_installed =
        .error (.skipTest
          "No processor info found for the current partition")) ∧
    (∀ (procArch : Option String) (systemName : String)
        (uenv uenv' : Software) (uenv_name : String)
        (uenvs_installed : List Software),
      get_uenv_name_from_software true procArch systemName uenv none =
        .ok uenv_name →
      validate_uenv_software_fields uenv = .ok uenv' →
      is_uenv_installed true procArch systemName uenv uenvs_installed =
        (if uenv' ∈ uenvs_installed
         then .error (.skipTest ("uenv " ++ uenv_name ++ " is already built"))
         else .ok ())) := by
  refine ⟨?_, ?_, ?_⟩
  · intro sched
    cases sched <;> simp [skip_if_not_slurm]
  · intro procArch systemName uenv uenvs_installed
    rfl
  · intro procArch systemName uenv uenv' uenv_name uenvs_installed hname hval
    rw [is_uenv_installed, hname]
    have h2 : Except.bind (validate_uenv_software_fields uenv)
        (fun uenv2 => if uenv2 ∈ uenvs_installed
          then Except.error (PyErr.skipTest
            ("uenv " ++ uenv_name ++ " is already built"))
          else Except.ok ()) =
        (if uenv' ∈ uenvs_installed
         then Except.error (PyErr.skipTest
           ("uenv " ++ uenv_name ++ " is already built"))
         else Except.ok ()) := by
      rw [hval]
      rfl
    exact h2

/-- Witness for C8: with processor information present, a concrete
descriptor whose validated form is in the installed list is skipped, with
the computed uenv name in the skip message. -/
theorem skip_preconditions_characterized_witness :
    is_uenv_installed true (some "x86") "s" { name := some "a" }
      [{ name := some "a@latestgcc13", bootstrap := some "gcc@13",
         gcc := some "gcc@13", spack := some "v0.23.1", descr := some "a",
         spec := some (.str "  - a "), variants := some (.str "  - +mpi"),
         mpi := some (.str "spec: cray-mpich"), envname := some "a" }] =
      .error (.skipTest "uenv a/latest@s%x86 is already built") := by
  have h := skip_preconditions_characterized.2.2 (some "x86") "s"
    { name := some "a" }
    { name := some "a@latestgcc13", bootstrap := some "gcc@13",
      gcc := some "gcc@13", spack := some "v0.23.1", descr := some "a",
      spec := some (.str "  - a "), variants := some (.str "  - +mpi"),
      mpi := some (.str "spec: cray-mpich"), envname := some "a" }
    "a/latest@s%x86"
    [{ name := some "a@latestgcc13", bootstrap := some "gcc@13",
       gcc := some "gcc@13", spack := some "v0.23.1", descr := some "a",
       spec := some (.str "  - a "), variants := some (.str "  - +mpi"),
       mpi := some (.str "spec: cray-mpich"), envname := some "a" }]
    (by rfl) (by rfl)
  rw [h]
  simp

end Hpctestslib
